import Mathlib

/-!
Verification of the car-telemetry core (simulation engine, alert engine,
in-memory telemetry repository) against its natural-language specification.

The TypeScript sources are shallowly embedded: JS `number` arithmetic is
modelled by `ℚ` (every operation used by the code — `+`, `*`, clamps,
`Math.round`, `Math.floor`, comparisons — is exact on the values the claims
quantify over, and the claims are order/bound properties that are stable
under this reading), fallible paths return `Option`/explicit result values,
and the mutable objects of the alert engine are modelled by value-passing
plus an explicit "post-call view" capturing JS reference aliasing.
-/

namespace CarTelemetry

/-! ### Numeric helpers from the source (`engine.ts` Helper Math section) -/

/-- Source `clamp(v, min, max)`: `v < min ? min : v > max ? max : v`. -/
def clamp (v lo hi : ℚ) : ℚ := if v < lo then lo else if v > hi then hi else v

/-- Source `lerp(a, b, t)`: `a + (b - a) * t`. -/
def lerp (a b t : ℚ) : ℚ := a + (b - a) * t

/-- Source `approach(current, target, factor)`: `current + (target - current) * factor`. -/
def approach (current target factor : ℚ) : ℚ := current + (target - current) * factor

/-- Models JS `Math.round(x)`: round half toward positive infinity, i.e. `⌊x + 1/2⌋`. -/
def jsRound (x : ℚ) : ℤ := ⌊x + 1/2⌋

/-- Source `round2(n)`: `Math.round(n * 100) / 100`. -/
def round2 (n : ℚ) : ℚ := (jsRound (n * 100) : ℚ) / 100

/-- Source `round1(n)`: `Math.round(n * 10) / 10`. -/
def round1 (n : ℚ) : ℚ := (jsRound (n * 10) : ℚ) / 10

lemma clamp_le {v lo hi : ℚ} (h : lo ≤ hi) : clamp v lo hi ≤ hi := by
  unfold clamp; split_ifs with h1 h2 <;> linarith

lemma le_clamp {v lo hi : ℚ} (h : lo ≤ hi) : lo ≤ clamp v lo hi := by
  unfold clamp; split_ifs with h1 h2 <;> linarith

lemma jsRound_le {x : ℚ} {n : ℤ} (h : x ≤ n) : jsRound x ≤ n := by
  unfold jsRound
  have : x + 1/2 ≤ (n : ℚ) + 1/2 := by linarith
  calc ⌊x + 1/2⌋ ≤ ⌊(n : ℚ) + 1/2⌋ := Int.floor_le_floor this
    _ = n := by
        rw [Int.floor_eq_iff] <;> push_cast <;> norm_num

lemma le_jsRound {x : ℚ} {n : ℤ} (h : (n : ℚ) ≤ x) : n ≤ jsRound x := by
  unfold jsRound
  apply Int.le_floor.mpr
  push_cast
  linarith

lemma round2_bounds {x : ℚ} {a b : ℤ} (ha : (a : ℚ) ≤ x * 100) (hb : x * 100 ≤ (b : ℚ)) :
    (a : ℚ) / 100 ≤ round2 x ∧ round2 x ≤ (b : ℚ) / 100 := by
  unfold round2
  constructor
  · have := le_jsRound ha
    have : (a : ℚ) ≤ (jsRound (x * 100) : ℚ) := by exact_mod_cast this
    linarith
  · have := jsRound_le hb
    have : (jsRound (x * 100) : ℚ) ≤ (b : ℚ) := by exact_mod_cast this
    linarith

/-! ### Data model (`types/telemetry.ts`)

`TelemetrySample`, with JS numbers read as `ℚ` and integer-constrained
fields (`gear`, `lap`, `sector`) as `ℤ`.  The `latitude`/`longitude`
fields (a placeholder orbit computed with `Math.sin`/`Math.cos`, marked
in the source as out-of-scope geometry) and presentation-only strings
are not part of any claim and are not modelled. -/

structure Sample where
  timestamp : ℚ
  vehicleId : String
  speedKph : ℚ
  rpm : ℚ
  gear : ℤ
  throttlePct : ℚ
  brakePct : ℚ
  steeringDeg : ℚ
  coolantC : ℚ
  oilC : ℚ
  batteryV : ℚ
  stateOfCharge : ℚ
  tireFL : ℚ
  tireFR : ℚ
  tireRL : ℚ
  tireRR : ℚ
  lap : ℤ
  sector : ℤ
deriving DecidableEq, Repr

/-- Numeric-range part of `TelemetrySampleSchema` (`types/telemetry.ts`):
`speedKph ≥ 0`, `rpm ≥ 0`, `gear : int ≥ 0`, `throttlePct/brakePct ∈ [0,100]`,
`steeringDeg ∈ [-180,180]`, `batteryV > 0`, `stateOfCharge ∈ [0,100]`,
`lap : int ≥ 0`, `sector : int ≥ 0` (integrality of `gear`/`lap`/`sector`
is carried by their `ℤ` type). -/
def isValidSample (s : Sample) : Bool :=
  0 ≤ s.speedKph && 0 ≤ s.rpm && 0 ≤ s.gear &&
  0 ≤ s.throttlePct && s.throttlePct ≤ 100 &&
  0 ≤ s.brakePct && s.brakePct ≤ 100 &&
  -180 ≤ s.steeringDeg && s.steeringDeg ≤ 180 &&
  0 < s.batteryV && 0 ≤ s.stateOfCharge && s.stateOfCharge ≤ 100 &&
  0 ≤ s.lap && 0 ≤ s.sector

/-! ### Simulation engine (`lib/simulation/engine.ts`)

One tick of the engine.  All stochastic decisions of a tick are the
values of the PRNG draws made by the source in its fixed call order;
they are gathered in `TickDraws`, so a run of the engine is a pure
function of the seed-determined draw stream together with the
wall-clock instants `now = Date.now()` observed at each tick (the
source computes `dtMs = now - this.state.lastTs` from the real clock).
Theorems over all draw values cover in particular the values actually
produced by the seeded mulberry32 generator. -/

structure TickDraws where
  throttleDrift : ℚ
  brakeChance : Bool
  brakeDelta : ℚ
  steerDrift : ℚ
  coolantJitter : ℚ
  oilJitter : ℚ
  anomalyChance : Bool
  anomalyTicks : ℕ
  battJitter : ℚ
  tireJitterFL : ℚ
  tireJitterFR : ℚ
  tireJitterRL : ℚ
  tireJitterRR : ℚ
deriving DecidableEq, Repr

/-- All-zero draws: every `normal(...)` call returns its mean offset 0 and
every `chance(...)` call returns false.  Used for concrete evaluations. -/
def zeroDraws : TickDraws :=
  { throttleDrift := 0, brakeChance := false, brakeDelta := 0, steerDrift := 0,
    coolantJitter := 0, oilJitter := 0, anomalyChance := false, anomalyTicks := 0,
    battJitter := 0, tireJitterFL := 0, tireJitterFR := 0, tireJitterRL := 0,
    tireJitterRR := 0 }

/-- Embeds `InternalState` of `engine.ts` (the scheduling fields `running`/`timer`
are outside the per-tick state computation and not modelled). -/
structure EngineState where
  lastTs : ℚ
  gear : ℤ
  speedKph : ℚ
  rpm : ℚ
  throttlePct : ℚ
  brakePct : ℚ
  steeringDeg : ℚ
  coolantC : ℚ
  oilC : ℚ
  batteryV : ℚ
  stateOfCharge : ℚ
  tireFL : ℚ
  tireFR : ℚ
  tireRL : ℚ
  tireRR : ℚ
  distanceM : ℚ
  lap : ℤ
  anomalyCooldown : ℕ
deriving DecidableEq, Repr

/-- Source `createInitialState()` of `engine.ts`; `now0` is the `Date.now()`
value observed there. -/
def createInitialState (now0 : ℚ) : EngineState :=
  { lastTs := now0, gear := 1, speedKph := 0, rpm := 1200, throttlePct := 10,
    brakePct := 0, steeringDeg := 0, coolantC := 70, oilC := 75, batteryV := 13,
    stateOfCharge := 95, tireFL := 55, tireFR := 55, tireRL := 50, tireRR := 50,
    distanceM := 0, lap := 0, anomalyCooldown := 0 }

/-- Source `GEAR_RATIOS[g]` for `g ≥ 1` (`[0, 3.2, 2.1, 1.55, 1.15, 0.95, 0.82]`);
an out-of-range index yields `undefined || 1 = 1` as in the source. -/
def gearRatio (g : ℤ) : ℚ :=
  if g = 1 then 3.2 else if g = 2 then 2.1 else if g = 3 then 1.55
  else if g = 4 then 1.15 else if g = 5 then 0.95 else if g = 6 then 0.82 else 1

/-- Source `speedToRpm(speedKph, gear, maxRpm)` of `engine.ts`. -/
def speedToRpm (speedKph : ℚ) (gear : ℤ) (maxRpm : ℚ) : ℚ :=
  if gear ≤ 0 then 900
  else clamp (speedKph * gearRatio gear * 55) 900 (maxRpm * 1.05)

/-- Source `dtMs = now - this.state.lastTs` at the top of `Engine.tick()`:
the tick length is measured from the real clock, not from the drawn
scheduling delay. -/
def tickDt (st : EngineState) (now : ℚ) : ℚ := now - st.lastTs

/-- Throttle drift step: `clamp(throttlePct + normal(0,4), 5, 100)`. -/
def nextThrottle (st : EngineState) (d : TickDraws) : ℚ :=
  clamp (st.throttlePct + d.throttleDrift) 5 100

/-- Brake step: with probability 0.02 `clamp(brakePct + normal(20,10), 0, 90)`,
else `brakePct *= 0.85`. -/
def nextBrake (st : EngineState) (d : TickDraws) : ℚ :=
  if d.brakeChance then clamp (st.brakePct + d.brakeDelta) 0 90
  else st.brakePct * 0.85

/-- Steering step: `clamp(steeringDeg + normal(0,3), -45, 45)`. -/
def nextSteering (st : EngineState) (d : TickDraws) : ℚ :=
  clamp (st.steeringDeg + d.steerDrift) (-45) 45

/-- Speed step: `accelFactor = throttle/100 - brake/70`;
`accelMps2 = accelFactor*7 - 0.012*speedKph`;
`speed = clamp(speed + accelMps2*(dtMs/1000)*3.6, 0, 320)`. -/
def nextSpeed (st : EngineState) (d : TickDraws) (now : ℚ) : ℚ :=
  clamp (st.speedKph +
    ((nextThrottle st d / 100 - nextBrake st d / 70) * 7 - 0.012 * st.speedKph) *
      (tickDt st now / 1000) * 3.6) 0 320

/-- Gear-shift step: upshift when `speedToRpm(speed', gear) > 0.94*maxRpm`
and `gear < 6`, downshift when it is `< 1600` and `gear > 1`. -/
def nextGear (maxRpm : ℚ) (st : EngineState) (d : TickDraws) (now : ℚ) : ℤ :=
  if speedToRpm (nextSpeed st d now) st.gear maxRpm > maxRpm * 0.94 ∧ st.gear < 6
  then st.gear + 1
  else if speedToRpm (nextSpeed st d now) st.gear maxRpm < 1600 ∧ st.gear > 1
  then st.gear - 1
  else st.gear

/-- RPM smoothing step: `rpm = lerp(rpm, speedToRpm(speed', gear'), 0.25)`. -/
def nextRpm (maxRpm : ℚ) (st : EngineState) (d : TickDraws) (now : ℚ) : ℚ :=
  lerp st.rpm (speedToRpm (nextSpeed st d now) (nextGear maxRpm st d now) maxRpm) 0.25

/-- Source `loadFactor = throttlePct / 100` (the just-updated throttle). -/
def loadFactor (st : EngineState) (d : TickDraws) : ℚ := nextThrottle st d / 100

/-- Coolant step: exponential approach to `75 + loadFactor*55` (rate 0.05)
plus jitter, then the anomaly bump `+0.9` while the cooldown is active. -/
def nextCoolant (st : EngineState) (d : TickDraws) : ℚ :=
  let coolant0 := approach st.coolantC (75 + loadFactor st d * 55) 0.05 + d.coolantJitter
  if st.anomalyCooldown > 0 then coolant0 + 0.9 else coolant0

/-- Oil step: exponential approach to `80 + loadFactor*60` (rate 0.04) plus jitter. -/
def nextOil (st : EngineState) (d : TickDraws) : ℚ :=
  approach st.oilC (80 + loadFactor st d * 60) 0.04 + d.oilJitter

/-- Anomaly cooldown step: decrement while active, else arm with
`intRange(10,25)` ticks with probability 0.001. -/
def nextCooldown (st : EngineState) (d : TickDraws) : ℕ :=
  if st.anomalyCooldown > 0 then st.anomalyCooldown - 1
  else if d.anomalyChance then d.anomalyTicks else 0

/-- Battery step: `soc = clamp(soc - loadFactor*0.006*(dt/100)
+ (brake/100)*0.004*(dt/100), 0, 100)`. -/
def nextSoc (st : EngineState) (d : TickDraws) (now : ℚ) : ℚ :=
  clamp (st.stateOfCharge - loadFactor st d * 0.006 * (tickDt st now / 100)
    + nextBrake st d / 100 * 0.004 * (tickDt st now / 100)) 0 100

/-- Voltage step: `12.6 + (soc'/100)*0.8 + normal(0,0.02)`. -/
def nextBattV (st : EngineState) (d : TickDraws) (now : ℚ) : ℚ :=
  12.6 + nextSoc st d now / 100 * 0.8 + d.battJitter

/-- Source `baseTire = 50 + (speed'/320)*35 + loadFactor*15`. -/
def baseTire (st : EngineState) (d : TickDraws) (now : ℚ) : ℚ :=
  50 + nextSpeed st d now / 320 * 35 + loadFactor st d * 15

/-- Tire temperature steps (front rate 0.15, rear rate 0.14, rear offsets). -/
def nextTireFL (st : EngineState) (d : TickDraws) (now : ℚ) : ℚ :=
  approach st.tireFL (baseTire st d now + d.tireJitterFL) 0.15

/-- Front-right tire step. -/
def nextTireFR (st : EngineState) (d : TickDraws) (now : ℚ) : ℚ :=
  approach st.tireFR (baseTire st d now + d.tireJitterFR) 0.15

/-- Rear-left tire step. -/
def nextTireRL (st : EngineState) (d : TickDraws) (now : ℚ) : ℚ :=
  approach st.tireRL (baseTire st d now - 2 + d.tireJitterRL) 0.14

/-- Rear-right tire step. -/
def nextTireRR (st : EngineState) (d : TickDraws) (now : ℚ) : ℚ :=
  approach st.tireRR (baseTire st d now - 1 + d.tireJitterRR) 0.14

/-- Distance before the lap-wrap check: `distanceM + (speed'/3.6)*(dt/1000)`. -/
def nextDist0 (st : EngineState) (d : TickDraws) (now : ℚ) : ℚ :=
  st.distanceM + nextSpeed st d now / 3.6 * (tickDt st now / 1000)

/-- Distance after wrapping past the 3000 m track length. -/
def nextDist (st : EngineState) (d : TickDraws) (now : ℚ) : ℚ :=
  if nextDist0 st d now ≥ 3000 then nextDist0 st d now - 3000 else nextDist0 st d now

/-- Lap counter, incremented on wrap. -/
def nextLap (st : EngineState) (d : TickDraws) (now : ℚ) : ℤ :=
  if nextDist0 st d now ≥ 3000 then st.lap + 1 else st.lap

/-- Source `sector = Math.min(SECTORS-1, Math.floor(distanceM / (3000/3)))`. -/
def nextSector (st : EngineState) (d : TickDraws) (now : ℚ) : ℤ :=
  min 2 ⌊nextDist st d now / 1000⌋

/-- Source `Engine.tick()` of `engine.ts`: one tick at wall-clock instant `now`
with PRNG draw values `d`, producing the new internal state and the
assembled sample (validation/emission is downstream of assembly).  Each
field is the order-significant step function above. -/
def tick (maxRpm : ℚ) (st : EngineState) (d : TickDraws) (now : ℚ) :
    EngineState × Sample :=
  ({ lastTs := now, gear := nextGear maxRpm st d now,
     speedKph := nextSpeed st d now, rpm := nextRpm maxRpm st d now,
     throttlePct := nextThrottle st d, brakePct := nextBrake st d,
     steeringDeg := nextSteering st d, coolantC := nextCoolant st d,
     oilC := nextOil st d, batteryV := nextBattV st d now,
     stateOfCharge := nextSoc st d now,
     tireFL := nextTireFL st d now, tireFR := nextTireFR st d now,
     tireRL := nextTireRL st d now, tireRR := nextTireRR st d now,
     distanceM := nextDist st d now, lap := nextLap st d now,
     anomalyCooldown := nextCooldown st d },
   { timestamp := now, vehicleId := "vehicle-001",
     speedKph := round2 (nextSpeed st d now),
     rpm := (jsRound (nextRpm maxRpm st d now) : ℚ),
     gear := nextGear maxRpm st d now,
     throttlePct := round2 (nextThrottle st d),
     brakePct := round2 (nextBrake st d),
     steeringDeg := round2 (nextSteering st d),
     coolantC := round2 (nextCoolant st d), oilC := round2 (nextOil st d),
     batteryV := round2 (nextBattV st d now),
     stateOfCharge := round2 (nextSoc st d now),
     tireFL := round1 (nextTireFL st d now), tireFR := round1 (nextTireFR st d now),
     tireRL := round1 (nextTireRL st d now), tireRR := round1 (nextTireRR st d now),
     lap := nextLap st d now, sector := nextSector st d now })

/-- A run of the engine: fold `tick` from the initial state over a list of
`(draws, now)` tick inputs, collecting the generated samples (newest
first; order is irrelevant to the bound claims). -/
def engineRun (maxRpm now0 : ℚ) (inputs : List (TickDraws × ℚ)) :
    EngineState × List Sample :=
  inputs.foldl
    (fun acc i =>
      let r := tick maxRpm acc.1 i.1 i.2
      (r.1, r.2 :: acc.2))
    (createInitialState now0, [])

/-- Samples generated by a run of the default-configuration engine
(`DEFAULT_VEHICLE.maxRpm = 7000`), starting from `start()`s freshly
reset state. -/
def engineSamples (now0 : ℚ) (inputs : List (TickDraws × ℚ)) : List Sample :=
  (engineRun 7000 now0 inputs).2

/-! ### Engine state invariant (claims C9 and C10) -/

/-- Invariant on the internal engine state, preserved by every tick of the
default-configuration engine (`maxRpm = 7000`), for arbitrary draw values
and arbitrary wall-clock instants. -/
def StateInv (st : EngineState) : Prop :=
  5 ≤ st.throttlePct ∧ st.throttlePct ≤ 100 ∧
  0 ≤ st.brakePct ∧ st.brakePct ≤ 90 ∧
  0 ≤ st.speedKph ∧ st.speedKph ≤ 320 ∧
  1 ≤ st.gear ∧ st.gear ≤ 6 ∧
  900 ≤ st.rpm ∧ st.rpm ≤ 7350 ∧
  0 ≤ st.stateOfCharge ∧ st.stateOfCharge ≤ 100

lemma stateInv_initial (now0 : ℚ) : StateInv (createInitialState now0) := by
  norm_num [StateInv, createInitialState]

lemma nextThrottle_bounds (st : EngineState) (d : TickDraws) :
    5 ≤ nextThrottle st d ∧ nextThrottle st d ≤ 100 :=
  ⟨le_clamp (by norm_num), clamp_le (by norm_num)⟩

lemma nextBrake_bounds {st : EngineState} (d : TickDraws)
    (h0 : 0 ≤ st.brakePct) (h90 : st.brakePct ≤ 90) :
    0 ≤ nextBrake st d ∧ nextBrake st d ≤ 90 := by
  unfold nextBrake
  split_ifs
  · exact ⟨le_clamp (by norm_num), clamp_le (by norm_num)⟩
  · constructor <;> nlinarith

lemma nextSpeed_bounds (st : EngineState) (d : TickDraws) (now : ℚ) :
    0 ≤ nextSpeed st d now ∧ nextSpeed st d now ≤ 320 :=
  ⟨le_clamp (by norm_num), clamp_le (by norm_num)⟩

lemma nextGear_bounds {st : EngineState} (maxRpm : ℚ) (d : TickDraws) (now : ℚ)
    (h1 : 1 ≤ st.gear) (h6 : st.gear ≤ 6) :
    1 ≤ nextGear maxRpm st d now ∧ nextGear maxRpm st d now ≤ 6 := by
  unfold nextGear
  split_ifs with ha hb
  · omega
  · omega
  · omega

lemma speedToRpm_bounds {g : ℤ} (v : ℚ) (hg : 1 ≤ g) :
    900 ≤ speedToRpm v g 7000 ∧ speedToRpm v g 7000 ≤ 7350 := by
  unfold speedToRpm
  rw [if_neg (by omega)]
  have h : (900 : ℚ) ≤ 7000 * 1.05 := by norm_num
  refine ⟨le_clamp h, ?_⟩
  have := clamp_le (v := v * gearRatio g * 55) h
  linarith [this]

lemma nextRpm_bounds {st : EngineState} (d : TickDraws) (now : ℚ)
    (hg1 : 1 ≤ st.gear) (hg6 : st.gear ≤ 6)
    (hlo : 900 ≤ st.rpm) (hhi : st.rpm ≤ 7350) :
    900 ≤ nextRpm 7000 st d now ∧ nextRpm 7000 st d now ≤ 7350 := by
  unfold nextRpm lerp
  obtain ⟨h1, h2⟩ := speedToRpm_bounds (nextSpeed st d now)
    (nextGear_bounds 7000 d now hg1 hg6).1
  constructor <;> nlinarith

lemma nextSoc_bounds (st : EngineState) (d : TickDraws) (now : ℚ) :
    0 ≤ nextSoc st d now ∧ nextSoc st d now ≤ 100 :=
  ⟨le_clamp (by norm_num), clamp_le (by norm_num)⟩

lemma tick_preserves_inv {st : EngineState} (d : TickDraws) (now : ℚ)
    (h : StateInv st) : StateInv (tick 7000 st d now).1 := by
  obtain ⟨_, _, hb0, hb90, _, _, hg1, hg6, hr0, hr1, _, _⟩ := h
  refine ⟨(nextThrottle_bounds st d).1, (nextThrottle_bounds st d).2,
    (nextBrake_bounds d hb0 hb90).1, (nextBrake_bounds d hb0 hb90).2,
    (nextSpeed_bounds st d now).1, (nextSpeed_bounds st d now).2,
    (nextGear_bounds 7000 d now hg1 hg6).1, (nextGear_bounds 7000 d now hg1 hg6).2,
    (nextRpm_bounds d now hg1 hg6 hr0 hr1).1, (nextRpm_bounds d now hg1 hg6 hr0 hr1).2,
    (nextSoc_bounds st d now).1, (nextSoc_bounds st d now).2⟩

/-- The bounds claim C9 states for each sample. -/
def SampleBounds (s : Sample) : Prop :=
  0 ≤ s.speedKph ∧ s.speedKph ≤ 320 ∧
  0 ≤ s.throttlePct ∧ s.throttlePct ≤ 100 ∧
  0 ≤ s.brakePct ∧ s.brakePct ≤ 100 ∧
  0 ≤ s.stateOfCharge ∧ s.stateOfCharge ≤ 100 ∧
  0 ≤ s.gear ∧ s.gear ≤ 6 ∧
  0 ≤ s.rpm

lemma round2_of_bounds {x lo hi : ℚ} {a b : ℤ}
    (hxlo : lo ≤ x) (hxhi : x ≤ hi)
    (hlo : (a : ℚ) = lo * 100) (hhi : (b : ℚ) = hi * 100) :
    lo ≤ round2 x ∧ round2 x ≤ hi := by
  have h := round2_bounds (x := x) (a := a) (b := b)
    (by rw [hlo]; nlinarith) (by rw [hhi]; nlinarith)
  constructor
  · calc lo = (a : ℚ) / 100 := by rw [hlo]; ring
      _ ≤ round2 x := h.1
  · calc round2 x ≤ (b : ℚ) / 100 := h.2
      _ = hi := by rw [hhi]; ring

lemma tick_sample_bounds {st : EngineState} (d : TickDraws) (now : ℚ)
    (h : StateInv st) : SampleBounds (tick 7000 st d now).2 := by
  obtain ⟨_, _, hb0, hb90, _, _, hg1, hg6, hr0, hr1, _, _⟩ := h
  obtain ⟨hs0, hs1⟩ := nextSpeed_bounds st d now
  obtain ⟨ht0, ht1⟩ := nextThrottle_bounds st d
  obtain ⟨hk0, hk1⟩ := nextBrake_bounds d hb0 hb90
  obtain ⟨hc0, hc1⟩ := nextSoc_bounds st d now
  obtain ⟨hg1', hg6'⟩ := nextGear_bounds 7000 d now hg1 hg6
  obtain ⟨hr0', hr1'⟩ := nextRpm_bounds d now hg1 hg6 hr0 hr1
  have hsp := round2_of_bounds (a := 0) (b := 32000) hs0 hs1 (by norm_num) (by norm_num)
  have hth := round2_of_bounds (a := 500) (b := 10000) ht0 ht1 (by norm_num) (by norm_num)
  have hbr := round2_of_bounds (a := 0) (b := 9000) hk0 hk1 (by norm_num) (by norm_num)
  have hsc := round2_of_bounds (a := 0) (b := 10000) hc0 hc1 (by norm_num) (by norm_num)
  have hrpm : (0 : ℚ) ≤ (jsRound (nextRpm 7000 st d now) : ℚ) := by
    have : (0 : ℤ) ≤ jsRound (nextRpm 7000 st d now) :=
      le_jsRound (by push_cast; linarith)
    exact_mod_cast this
  unfold SampleBounds tick
  dsimp only
  exact ⟨hsp.1, hsp.2, by linarith [hth.1], hth.2, hbr.1, by linarith [hbr.2],
    hsc.1, hsc.2, by omega, by omega, hrpm⟩

/-- The tighter per-sample bounds of implicit claim C10. -/
def TightSampleBounds (s : Sample) : Prop :=
  1 ≤ s.gear ∧ s.gear ≤ 6 ∧ 900 ≤ s.rpm ∧ s.rpm ≤ 7350

lemma tick_sample_tight {st : EngineState} (d : TickDraws) (now : ℚ)
    (h : StateInv st) : TightSampleBounds (tick 7000 st d now).2 := by
  obtain ⟨_, _, _, _, _, _, hg1, hg6, hr0, hr1, _, _⟩ := h
  obtain ⟨hg1', hg6'⟩ := nextGear_bounds 7000 d now hg1 hg6
  obtain ⟨hr0', hr1'⟩ := nextRpm_bounds d now hg1 hg6 hr0 hr1
  have hlo : (900 : ℚ) ≤ (jsRound (nextRpm 7000 st d now) : ℚ) := by
    have : (900 : ℤ) ≤ jsRound (nextRpm 7000 st d now) :=
      le_jsRound (by push_cast; linarith)
    exact_mod_cast this
  have hhi : (jsRound (nextRpm 7000 st d now) : ℚ) ≤ 7350 := by
    have : jsRound (nextRpm 7000 st d now) ≤ (7350 : ℤ) :=
      jsRound_le (by push_cast; linarith)
    exact_mod_cast this
  unfold TightSampleBounds tick
  dsimp only
  exact ⟨hg1', hg6', hlo, hhi⟩

lemma engineRun_inv (now0 : ℚ) (inputs : List (TickDraws × ℚ)) :
    StateInv (engineRun 7000 now0 inputs).1 ∧
    ∀ s ∈ (engineRun 7000 now0 inputs).2, SampleBounds s ∧ TightSampleBounds s := by
  unfold engineRun
  induction inputs using List.reverseRecOn with
  | nil => exact ⟨stateInv_initial now0, by simp⟩
  | append_singleton l i ih =>
    rw [List.foldl_append, List.foldl_cons, List.foldl_nil]
    obtain ⟨hst, hsam⟩ := ih
    refine ⟨tick_preserves_inv i.1 i.2 hst, ?_⟩
    intro s hs
    rcases List.mem_cons.mp hs with h | h
    · exact h ▸ ⟨tick_sample_bounds i.1 i.2 hst, tick_sample_tight i.1 i.2 hst⟩
    · exact hsam s h

/-- C9: every sample generated by the default-configuration engine, for
every draw stream (hence every seed) and every sequence of tick instants
(hence every run length), satisfies `0 ≤ speedKph ≤ 320`,
`0 ≤ throttlePct ≤ 100`, `0 ≤ brakePct ≤ 100`, `0 ≤ stateOfCharge ≤ 100`,
`gear ∈ [0,6]` and `rpm ≥ 0`.  Emitted samples are a subset of generated
samples (emission additionally filters through schema validation), so the
bounds hold for every emitted sample. -/
theorem engine_sample_bounds (now0 : ℚ) (inputs : List (TickDraws × ℚ))
    (s : Sample) (hs : s ∈ engineSamples now0 inputs) :
    0 ≤ s.speedKph ∧ s.speedKph ≤ 320 ∧
    0 ≤ s.throttlePct ∧ s.throttlePct ≤ 100 ∧
    0 ≤ s.brakePct ∧ s.brakePct ≤ 100 ∧
    0 ≤ s.stateOfCharge ∧ s.stateOfCharge ≤ 100 ∧
    0 ≤ s.gear ∧ s.gear ≤ 6 ∧
    0 ≤ s.rpm :=
  ((engineRun_inv now0 inputs).2 s hs).1

/-- Witness for C9: the engine's first tick from a fresh start (all-zero
draws, tick instant 100) generates a sample, and it satisfies the bounds. -/
theorem engine_sample_bounds_witness :
    (tick 7000 (createInitialState 0) zeroDraws 100).2 ∈
      engineSamples 0 [(zeroDraws, 100)] ∧
    (0 ≤ (tick 7000 (createInitialState 0) zeroDraws 100).2.speedKph ∧
     (tick 7000 (createInitialState 0) zeroDraws 100).2.speedKph ≤ 320 ∧
     0 ≤ (tick 7000 (createInitialState 0) zeroDraws 100).2.throttlePct ∧
     (tick 7000 (createInitialState 0) zeroDraws 100).2.throttlePct ≤ 100 ∧
     0 ≤ (tick 7000 (createInitialState 0) zeroDraws 100).2.brakePct ∧
     (tick 7000 (createInitialState 0) zeroDraws 100).2.brakePct ≤ 100 ∧
     0 ≤ (tick 7000 (createInitialState 0) zeroDraws 100).2.stateOfCharge ∧
     (tick 7000 (createInitialState 0) zeroDraws 100).2.stateOfCharge ≤ 100 ∧
     0 ≤ (tick 7000 (createInitialState 0) zeroDraws 100).2.gear ∧
     (tick 7000 (createInitialState 0) zeroDraws 100).2.gear ≤ 6 ∧
     0 ≤ (tick 7000 (createInitialState 0) zeroDraws 100).2.rpm) :=
  have hmem : (tick 7000 (createInitialState 0) zeroDraws 100).2 ∈
      engineSamples 0 [(zeroDraws, 100)] := by
    simp [engineSamples, engineRun]
  ⟨hmem, engine_sample_bounds 0 [(zeroDraws, 100)] _ hmem⟩

/-- C10 (implicit): every sample generated by the default-configuration
engine after `start()` has `gear ∈ [1,6]` (the engine never returns to
neutral) and `rpm ∈ [900, 7350] = [900, 1.05 × 7000]`, strictly tighter
than the spec's `gear ∈ [0,maxGear]`, `rpm ≥ 0`. -/
theorem engine_gear_rpm_tight_bounds (now0 : ℚ) (inputs : List (TickDraws × ℚ))
    (s : Sample) (hs : s ∈ engineSamples now0 inputs) :
    1 ≤ s.gear ∧ s.gear ≤ 6 ∧ 900 ≤ s.rpm ∧ s.rpm ≤ 7350 :=
  ((engineRun_inv now0 inputs).2 s hs).2

/-- Witness for C10: the first generated sample of a fresh-start run has
gear 1 and rpm 1125 ∈ [900, 7350]. -/
theorem engine_gear_rpm_tight_bounds_witness :
    (tick 7000 (createInitialState 0) zeroDraws 100).2 ∈
      engineSamples 0 [(zeroDraws, 100)] ∧
    (1 ≤ (tick 7000 (createInitialState 0) zeroDraws 100).2.gear ∧
     (tick 7000 (createInitialState 0) zeroDraws 100).2.gear ≤ 6 ∧
     900 ≤ (tick 7000 (createInitialState 0) zeroDraws 100).2.rpm ∧
     (tick 7000 (createInitialState 0) zeroDraws 100).2.rpm ≤ 7350) :=
  have hmem : (tick 7000 (createInitialState 0) zeroDraws 100).2 ∈
      engineSamples 0 [(zeroDraws, 100)] := by
    simp [engineSamples, engineRun]
  ⟨hmem, engine_gear_rpm_tight_bounds 0 [(zeroDraws, 100)] _ hmem⟩

/-! ### Claim C1: wall-clock dependence of the emitted telemetry -/

/-- C1 is refuted on the code: `Engine.tick()` computes
`dtMs = Date.now() - lastTs` from the real clock, and `dtMs` feeds the
speed integration.  Two runs with the same seed draw identical PRNG
sequences (the draw call order per tick is fixed, so with `zeroDraws`
standing for the common seed-determined draw values of the first tick),
but if the first tick fires 100 ms after engine creation in one run and
200 ms in the other — `setTimeout` gives no exactness guarantee — the
emitted `speedKph` differs (0.25 vs 0.5 km/h). -/
theorem simulationEngine_output_depends_on_wall_clock :
    (tick 7000 (createInitialState 0) zeroDraws 100).2.speedKph ≠
    (tick 7000 (createInitialState 0) zeroDraws 200).2.speedKph := by
  norm_num [tick, createInitialState, zeroDraws, nextSpeed, nextThrottle,
    nextBrake, tickDt, clamp, round2, jsRound]

/-! ### Claim C8: constructor-time configuration validation -/

/-- Embeds `SimulationOptions` of `engine.ts` (the fields claim C8 is about;
`vehicleMaxRpm` is the `vehicle.maxRpm` override). -/
structure SimulationOptions where
  minTickMs : Option ℚ
  maxTickMs : Option ℚ
  vehicleMaxRpm : Option ℚ
  seed : Option ℤ

/-- The engine's resolved `opts`. -/
structure EngineOpts where
  minTickMs : ℚ
  maxTickMs : ℚ
  vehicleMaxRpm : ℚ
  seed : ℤ
deriving DecidableEq, Repr

/-- The `Engine` constructor of `engine.ts`.  The body only merges
defaults (`minTickMs ?? 100`, `maxTickMs ?? 200`, `DEFAULT_VEHICLE`
spread, `seed ?? 1`) and seeds the PRNG; it contains no validation and
no throw path, so every execution returns normally — modelled by an
`Except` that is constantly `.ok`. -/
def engineConstructor (o : SimulationOptions) : Except String EngineOpts :=
  .ok { minTickMs := o.minTickMs.getD 100, maxTickMs := o.maxTickMs.getD 200,
        vehicleMaxRpm := o.vehicleMaxRpm.getD 7000, seed := o.seed.getD 1 }

/-- C8 is refuted on the code: constructing an engine with non-positive
tick bounds and a non-positive `maxRpm` succeeds (no
`ConfigurationError` is raised at construction time, nor anywhere else). -/
theorem engine_constructor_never_raises :
    engineConstructor
      { minTickMs := some (-5), maxTickMs := some 0,
        vehicleMaxRpm := some (-100), seed := none } =
    .ok { minTickMs := -5, maxTickMs := 0, vehicleMaxRpm := -100, seed := 1 } :=
  rfl

/-! ### Telemetry repository (`lib/persistence/telemetry-repo.ts`) -/

/-- Pagination cursor tokens, represented by their decoded value: the
source computes `parseInt(Buffer.from(cursor, 'base64').toString('utf8'), 10)`,
and base64 encode/decode round-trips the tokens the repository itself
produces (`Buffer.from(String(nextIndex)).toString('base64')`).  A token
is therefore modelled as the integer its decoded text parses to
(`num n`), or `junk` when `parseInt` yields `NaN` (decoded text with no
leading integer). -/
inductive CursorTok where
  | num (n : ℤ)
  | junk
deriving DecidableEq, Repr

/-- Embeds `HistoryQuery` (pre-validation): `from`/`to` are optional numbers,
`limit` an optional number validated by `z.number().int().min(1).max(500)
.default(200)`, `cursor` an optional token.  `from` is a Lean keyword,
hence `fromTs`/`toTs`. -/
structure HistoryQuery where
  fromTs : Option ℚ
  toTs : Option ℚ
  limit : Option ℚ
  cursor : Option CursorTok
deriving DecidableEq, Repr

/-- Embeds `HistoryResult` of the source: samples page, optional next cursor,
`totalAvailable`. -/
structure HistoryResult where
  samples : List Sample
  nextCursor : Option CursorTok
  totalAvailable : ℕ
deriving DecidableEq, Repr

/-- Embeds `InMemoryTelemetryRepo`: the `buffer` array plus `retentionMs`
(constructor default `DEFAULT_RETENTION = 3,600,000 ms`). -/
structure Repo where
  buffer : List Sample
  retentionMs : ℚ
deriving DecidableEq, Repr

/-- A freshly constructed repository. -/
def emptyRepo (retentionMs : ℚ) : Repo := { buffer := [], retentionMs := retentionMs }

/-- The hard-cap truncation inside `add`: when the buffer exceeds
`HARD_CAP = 25000`, `splice(0, excess)` drops the oldest excess. -/
def capDrop (l : List Sample) : List Sample :=
  if l.length > 25000 then l.drop (l.length - 25000) else l

/-- Source `InMemoryTelemetryRepo.add(sample)`: validate defensively (invalid
input ignored); push; drop the oldest excess over `HARD_CAP = 25000`;
then `evictOld(sample.timestamp)`, which strips the longest *prefix*
with `timestamp < sample.timestamp - retentionMs`. -/
def repoAdd (r : Repo) (s : Sample) : Repo :=
  if isValidSample s then
    { r with
      buffer :=
        List.dropWhile (fun x => decide (x.timestamp < s.timestamp - r.retentionMs))
          (capDrop (r.buffer ++ [s])) }
  else r

/-- Feeding a list of samples through `add` in order. -/
def repoAddAll (r : Repo) (l : List Sample) : Repo := l.foldl repoAdd r

/-- Source `InMemoryTelemetryRepo.size()`. -/
def repoSize (r : Repo) : ℕ := r.buffer.length

/-- The `QUERY_SCHEMA` limit rule: absent limit defaults to 200; a present
limit must be an integer in `[1,500]`, otherwise validation fails. -/
def resolveLimit : Option ℚ → Option ℕ
  | none => some 200
  | some l => if l.den = 1 ∧ 1 ≤ l ∧ l ≤ 500 then some l.num.toNat else none

/-- Source `parseInt(decoded, 10) || 0`: an unparsable cursor and a cursor
parsing to `0` both give start offset 0; any other integer is used as-is. -/
def cursorOffset : Option CursorTok → ℤ
  | none => 0
  | some CursorTok.junk => 0
  | some (CursorTok.num n) => n

/-- Models JS `Array.prototype.slice(start, stop)` with integer arguments:
negative indices count from the end, then both are clamped to
`[0, length]`, and the elements of `[start', stop')` are returned. -/
def jsSlice (l : List Sample) (start stop : ℤ) : List Sample :=
  List.drop
    (if start < 0 then max ((l.length : ℤ) + start) 0 else min start (l.length : ℤ)).toNat
    (List.take
      (if stop < 0 then max ((l.length : ℤ) + stop) 0 else min stop (l.length : ℤ)).toNat
      l)

/-- The time narrowing of `query`: `filter(s => s.timestamp >= from)` then
`filter(s => s.timestamp < to)`, each only when the bound is present. -/
def timeFilter (buf : List Sample) (fromTs toTs : Option ℚ) : List Sample :=
  let c1 := match fromTs with
    | none => buf
    | some f => buf.filter (fun s => decide (f ≤ s.timestamp))
  match toTs with
  | none => c1
  | some t => c1.filter (fun s => decide (s.timestamp < t))

/-- The candidate list of a query: the buffer narrowed to `[from, to)`
(the `candidates` local of the source; it does not depend on
`limit`/`cursor`). -/
def candidatesOf (r : Repo) (q : HistoryQuery) : List Sample :=
  timeFilter r.buffer q.fromTs q.toTs

/-- Source `InMemoryTelemetryRepo.query(raw)`: on schema-validation failure an
ordinary result `{ samples: [], totalAvailable: buffer.length }` is
returned (the result type has no error field); otherwise the
cursor-decoded offset slices the time-filtered candidate list
(`nextIndex = startIndex + slice.length`, `nextCursor` present iff
`nextIndex < candidates.length`). -/
def repoQuery (r : Repo) (q : HistoryQuery) : HistoryResult :=
  match resolveLimit q.limit with
  | none => { samples := [], nextCursor := none, totalAvailable := r.buffer.length }
  | some limit =>
    { samples :=
        jsSlice (candidatesOf r q) (cursorOffset q.cursor) (cursorOffset q.cursor + limit),
      nextCursor :=
        if cursorOffset q.cursor +
            ((jsSlice (candidatesOf r q) (cursorOffset q.cursor)
              (cursorOffset q.cursor + limit)).length : ℤ) <
            ((candidatesOf r q).length : ℤ) then
          some (CursorTok.num (cursorOffset q.cursor +
            ((jsSlice (candidatesOf r q) (cursorOffset q.cursor)
              (cursorOffset q.cursor + limit)).length : ℤ)))
        else none,
      totalAvailable := (candidatesOf r q).length }

/-- Driver loop of the pagination claim: issue the query, then keep
reissuing it with each returned `nextCursor` until `nextCursor` is
absent (with a fuel bound to stay structural). -/
def collectPages (r : Repo) (q : HistoryQuery) : ℕ → Option CursorTok → List HistoryResult
  | 0, _ => []
  | fuel + 1, cur =>
    let res := repoQuery r { q with cursor := cur }
    match res.nextCursor with
    | none => [res]
    | some c => res :: collectPages r q fuel (some c)

/-- Buffers in non-decreasing timestamp order (what in-order feeding of
the single writer produces). -/
def TsSorted (l : List Sample) : Prop :=
  l.Pairwise (fun a b => a.timestamp ≤ b.timestamp)

/-- A minimal schema-valid sample with timestamp `t`, for concrete
repository scenarios. -/
def mkSample (t : ℚ) : Sample :=
  { timestamp := t, vehicleId := "v", speedKph := 0, rpm := 0, gear := 0,
    throttlePct := 0, brakePct := 0, steeringDeg := 0, coolantC := 70, oilC := 75,
    batteryV := 12, stateOfCharge := 50, tireFL := 50, tireFR := 50, tireRL := 50,
    tireRR := 50, lap := 0, sector := 0 }

/-! ### Repository lemmas (claims C3, C4, C7) -/

lemma capDrop_sublist (l : List Sample) : (capDrop l).Sublist l := by
  unfold capDrop
  split_ifs
  · exact List.drop_sublist _ _
  · exact List.Sublist.refl _

lemma capDrop_length (l : List Sample) : (capDrop l).length = min l.length 25000 := by
  unfold capDrop
  split_ifs with h
  · rw [List.length_drop]; omega
  · omega

lemma repoAdd_buffer_sublist (r : Repo) (s : Sample) :
    (repoAdd r s).buffer.Sublist (r.buffer ++ [s]) := by
  unfold repoAdd
  split_ifs
  · exact (List.dropWhile_sublist _).trans (capDrop_sublist _)
  · exact List.sublist_append_left _ _

lemma repoAdd_retention (r : Repo) (s : Sample) :
    (repoAdd r s).retentionMs = r.retentionMs := by
  unfold repoAdd
  split_ifs <;> rfl

lemma repoAddAll_retention (l : List Sample) :
    ∀ r : Repo, (repoAddAll r l).retentionMs = r.retentionMs := by
  induction l with
  | nil => intro r; rfl
  | cons a t ih =>
    intro r
    show (repoAddAll (repoAdd r a) t).retentionMs = r.retentionMs
    rw [ih (repoAdd r a), repoAdd_retention]

lemma repoAddAll_buffer_sublist (l : List Sample) :
    ∀ r : Repo, (repoAddAll r l).buffer.Sublist (r.buffer ++ l) := by
  induction l with
  | nil => intro r; simp [repoAddAll]
  | cons a t ih =>
    intro r
    show (repoAddAll (repoAdd r a) t).buffer.Sublist _
    refine (ih (repoAdd r a)).trans ?_
    have h := (repoAdd_buffer_sublist r a).append_right t
    simpa using h

lemma repoAdd_size_le {r : Repo} (s : Sample) (h : r.buffer.length ≤ 25000) :
    (repoAdd r s).buffer.length ≤ 25000 := by
  unfold repoAdd
  split_ifs
  · have h1 := (List.dropWhile_sublist
      (fun x : Sample => decide (x.timestamp < s.timestamp - r.retentionMs))
      (l := capDrop (r.buffer ++ [s]))).length_le
    have h2 := capDrop_length (r.buffer ++ [s])
    simp only at h1 ⊢
    omega
  · exact h

lemma repoAddAll_size_le (l : List Sample) :
    ∀ r : Repo, r.buffer.length ≤ 25000 → (repoAddAll r l).buffer.length ≤ 25000 := by
  induction l with
  | nil => intro r h; exact h
  | cons a t ih =>
    intro r h
    show (repoAddAll (repoAdd r a) t).buffer.length ≤ 25000
    exact ih (repoAdd r a) (repoAdd_size_le a h)

lemma TsSorted.sublist {l' l : List Sample} (h : l'.Sublist l) (hs : TsSorted l) :
    TsSorted l' := List.Pairwise.sublist h hs

lemma sorted_dropWhile_all_ge (c : ℚ) :
    ∀ l : List Sample, TsSorted l →
      ∀ x ∈ l.dropWhile (fun a => decide (a.timestamp < c)), c ≤ x.timestamp := by
  intro l
  induction l with
  | nil => intro _ x hx; simp [List.dropWhile] at hx
  | cons a t ih =>
    intro hs x hx
    rw [List.dropWhile_cons] at hx
    by_cases h : a.timestamp < c
    · rw [if_pos (by simpa using h)] at hx
      exact ih (List.Pairwise.of_cons hs) x hx
    · rw [if_neg (by simpa using h)] at hx
      rcases List.mem_cons.mp hx with hxa | hxt
      · subst hxa; linarith [not_lt.mp h]
      · have := (List.pairwise_cons.mp hs).1 x hxt
        linarith [not_lt.mp h]

/-- C3 as stated is refuted on the code: `evictOld` only strips a prefix
of the buffer, so with out-of-order adds (retention 1000 ms; adds at
t=2000, t=0, t=1500) the t=0 sample survives the third add even though
its timestamp is strictly older than `1500 - 1000`. -/
theorem repo_retention_violated_for_out_of_order_adds :
    mkSample 0 ∈ (repoAddAll (emptyRepo 1000)
      [mkSample 2000, mkSample 0, mkSample 1500]).buffer ∧
    (mkSample 0).timestamp < (mkSample 1500).timestamp - 1000 := by
  constructor
  · norm_num [repoAddAll, repoAdd, capDrop, emptyRepo, isValidSample, mkSample,
      List.dropWhile]
  · norm_num [mkSample]

/-- C3 amended: after every `add`, for every add sequence whatsoever
(no ordering assumption), the size is at most the 25,000 hard cap; and
provided samples are added in non-decreasing timestamp order (the order
the single writer produces), after every `add` of a valid sample no
retained sample is strictly older than the just-added sample's
timestamp minus `retentionMs`; and the spec scenario holds: with
retention 1000 and in-order adds at t=0, 500, 1500, the third add
evicts the t=0 sample and leaves `size() == 2`. -/
theorem repo_cap_and_retention_for_monotone_adds :
    (∀ (retentionMs : ℚ) (l : List Sample),
      repoSize (repoAddAll (emptyRepo retentionMs) l) ≤ 25000) ∧
    (∀ (retentionMs : ℚ) (pre : List Sample) (s : Sample),
      isValidSample s = true → TsSorted (pre ++ [s]) →
      ∀ x ∈ (repoAddAll (emptyRepo retentionMs) (pre ++ [s])).buffer,
        s.timestamp - retentionMs ≤ x.timestamp) ∧
    (repoSize (repoAddAll (emptyRepo 1000)
        [mkSample 0, mkSample 500, mkSample 1500]) = 2 ∧
      mkSample 0 ∉ (repoAddAll (emptyRepo 1000)
        [mkSample 0, mkSample 500, mkSample 1500]).buffer) := by
  refine ⟨?_, ?_, ?_, ?_⟩
  · intro retentionMs l
    exact repoAddAll_size_le l _ (by simp [emptyRepo])
  · intro retentionMs pre s hvalid hmono
    have hsplit : repoAddAll (emptyRepo retentionMs) (pre ++ [s]) =
        repoAdd (repoAddAll (emptyRepo retentionMs) pre) s := by
      rw [repoAddAll, List.foldl_append, List.foldl_cons, List.foldl_nil]; rfl
    intro x hx
    rw [hsplit] at hx
    set rp := repoAddAll (emptyRepo retentionMs) pre with hrp
    have hsorted : TsSorted (capDrop (rp.buffer ++ [s])) := by
      refine TsSorted.sublist ((capDrop_sublist _).trans ?_) hmono
      have h1 : rp.buffer.Sublist pre := by
        simpa [emptyRepo] using repoAddAll_buffer_sublist pre (emptyRepo retentionMs)
      exact h1.append_right [s]
    have hret : rp.retentionMs = retentionMs := repoAddAll_retention _ _
    rw [repoAdd, if_pos hvalid] at hx
    simp only [hret] at hx
    exact sorted_dropWhile_all_ge (s.timestamp - retentionMs) _ hsorted x hx
  · norm_num [repoSize, repoAddAll, repoAdd, capDrop, emptyRepo, isValidSample,
      mkSample, List.dropWhile]
  · norm_num [repoAddAll, repoAdd, capDrop, emptyRepo, isValidSample,
      mkSample, List.dropWhile]

/-- Witness for C3 (amended): the in-order add sequence t=0, 500, 1500
with retention 1000 satisfies the hypotheses, and the conclusion holds
for it. -/
theorem repo_cap_and_retention_witness :
    repoSize (repoAddAll (emptyRepo 1000)
      [mkSample 0, mkSample 500, mkSample 1500]) ≤ 25000 ∧
    ∀ x ∈ (repoAddAll (emptyRepo 1000)
        [mkSample 0, mkSample 500, mkSample 1500]).buffer,
      (mkSample 1500).timestamp - 1000 ≤ x.timestamp :=
  ⟨repo_cap_and_retention_for_monotone_adds.1 1000
      [mkSample 0, mkSample 500, mkSample 1500],
   repo_cap_and_retention_for_monotone_adds.2.1 1000 [mkSample 0, mkSample 500]
      (mkSample 1500) (by norm_num [isValidSample, mkSample])
      (by norm_num [TsSorted, mkSample])⟩

/-! ### Pagination (claim C4) -/

lemma jsSlice_of_nonneg (l : List Sample) (k m : ℕ) :
    jsSlice l (k : ℤ) ((k : ℤ) + (m : ℤ)) = (l.drop k).take m := by
  unfold jsSlice
  rw [if_neg (by omega), if_neg (by omega)]
  have hs : (min (k : ℤ) (l.length : ℤ)).toNat = min k l.length := by omega
  have he : (min ((k : ℤ) + (m : ℤ)) (l.length : ℤ)).toNat = min (k + m) l.length := by
    omega
  rw [hs, he]
  rcases le_or_lt l.length k with h | h
  · rw [min_eq_right (by omega), min_eq_right (by omega),
      List.take_of_length_le (le_refl _), List.drop_eq_nil_of_le h,
      List.drop_eq_nil_of_le (le_refl _), List.take_nil]
  · rw [min_eq_left (le_of_lt h), List.take_drop]
    congr 1
    rcases le_or_lt (k + m) l.length with h2 | h2
    · rw [min_eq_left h2]
    · rw [min_eq_right (le_of_lt h2), List.take_of_length_le (le_refl _),
        List.take_of_length_le (le_of_lt h2)]

lemma repoQuery_eval (r : Repo) (q : HistoryQuery) (cur : Option CursorTok)
    (k L : ℕ) (hL : resolveLimit q.limit = some L)
    (hcur : cursorOffset cur = (k : ℤ)) :
    repoQuery r { q with cursor := cur } =
      { samples := ((candidatesOf r q).drop k).take L,
        nextCursor :=
          if (k : ℤ) + ((((candidatesOf r q).drop k).take L).length : ℤ) <
              ((candidatesOf r q).length : ℤ) then
            some (CursorTok.num
              ((k : ℤ) + ((((candidatesOf r q).drop k).take L).length : ℤ)))
          else none,
        totalAvailable := (candidatesOf r q).length } := by
  have hl : resolveLimit ({ q with cursor := cur } : HistoryQuery).limit = some L := hL
  have hc : cursorOffset ({ q with cursor := cur } : HistoryQuery).cursor = (k : ℤ) := hcur
  have hcand : candidatesOf r { q with cursor := cur } = candidatesOf r q := rfl
  unfold repoQuery
  rw [hl]
  simp only [hcand, hc]
  rw [jsSlice_of_nonneg]

lemma collectPages_spec (r : Repo) (q : HistoryQuery) (L : ℕ)
    (hL : resolveLimit q.limit = some L) (hL1 : 1 ≤ L) :
    ∀ (fuel k : ℕ) (cur : Option CursorTok), cursorOffset cur = (k : ℤ) →
      (candidatesOf r q).length ≤ k + fuel →
      List.flatten ((collectPages r q fuel cur).map HistoryResult.samples) =
        (candidatesOf r q).drop k ∧
      ∀ res ∈ collectPages r q fuel cur,
        res.totalAvailable = (candidatesOf r q).length := by
  intro fuel
  induction fuel with
  | zero =>
    intro k cur hcur hle
    refine ⟨?_, by simp [collectPages]⟩
    simp only [collectPages, List.map_nil, List.flatten_nil]
    exact (List.drop_eq_nil_of_le (by omega)).symm
  | succ f ih =>
    intro k cur hcur hle
    rw [collectPages, repoQuery_eval r q cur k L hL hcur]
    have hlen : (((candidatesOf r q).drop k).take L).length =
        min L ((candidatesOf r q).length - k) := by
      rw [List.length_take, List.length_drop]
    by_cases hmore : (k : ℤ) + ((((candidatesOf r q).drop k).take L).length : ℤ) <
        ((candidatesOf r q).length : ℤ)
    · rw [if_pos hmore]
      simp only []
      have hLeq : (((candidatesOf r q).drop k).take L).length = L := by omega
      have hknext : cursorOffset (some (CursorTok.num
          ((k : ℤ) + ((((candidatesOf r q).drop k).take L).length : ℤ)))) =
          ((k + L : ℕ) : ℤ) := by
        rw [cursorOffset, hLeq]; push_cast; ring
      have hbound : (candidatesOf r q).length ≤ (k + L) + f := by omega
      obtain ⟨hjoin, htot⟩ := ih (k + L)
        (some (CursorTok.num
          ((k : ℤ) + ((((candidatesOf r q).drop k).take L).length : ℤ))))
        hknext hbound
      constructor
      · rw [List.map_cons, List.flatten_cons]
        dsimp only
        rw [hjoin, ← List.drop_drop]
        exact List.take_append_drop L ((candidatesOf r q).drop k)
      · intro res hres
        rcases List.mem_cons.mp hres with h | h
        · rw [h]
        · exact htot res h
    · rw [if_neg hmore]
      simp only []
      constructor
      · rw [List.map_cons, List.map_nil, List.flatten_cons, List.flatten_nil,
          List.append_nil]
        dsimp only
        rcases le_or_lt (candidatesOf r q).length k with hk | hk
        · rw [List.drop_eq_nil_of_le hk, List.take_nil]
        · refine List.take_of_length_le ?_
          rw [List.length_drop]
          omega
      · intro res hres
        rcases List.mem_cons.mp hres with h | h
        · rw [h]
        · simp at h

lemma mem_candidatesOf (r : Repo) (q : HistoryQuery) (x : Sample) :
    x ∈ candidatesOf r q ↔
      x ∈ r.buffer ∧ (∀ f ∈ q.fromTs, f ≤ x.timestamp) ∧
        (∀ t ∈ q.toTs, x.timestamp < t) := by
  unfold candidatesOf timeFilter
  rcases q with ⟨f?, t?, _, _⟩
  cases f? <;> cases t? <;>
    simp [List.mem_filter, Option.mem_def, and_assoc] <;> tauto

lemma tsSorted_candidatesOf {r : Repo} (q : HistoryQuery)
    (hs : TsSorted r.buffer) : TsSorted (candidatesOf r q) := by
  unfold candidatesOf timeFilter TsSorted at *
  rcases q with ⟨f?, t?, _, _⟩
  cases f? <;> cases t?
  · exact hs
  · exact hs.filter _
  · exact hs.filter _
  · exact (hs.filter _).filter _

/-- C4 as stated is refuted on the code: the query returns the buffer in
insertion order, so for a repository state built by out-of-order adds
(t=2 then t=1, both retained), the returned page `[t=2, t=1]` is not in
non-decreasing timestamp order. -/
theorem repo_query_order_violated_for_out_of_order_state :
    (repoQuery (repoAddAll (emptyRepo 3600000) [mkSample 2, mkSample 1])
      { fromTs := none, toTs := none, limit := none, cursor := none }).samples =
      [mkSample 2, mkSample 1] ∧
    ¬ TsSorted [mkSample 2, mkSample 1] := by
  constructor
  · norm_num [repoQuery, repoAddAll, repoAdd, capDrop, emptyRepo, isValidSample,
      mkSample, resolveLimit, cursorOffset, candidatesOf, timeFilter, jsSlice,
      List.dropWhile]
  · norm_num [TsSorted, mkSample]

/-- C4 amended: for every repository state whose buffer is in
non-decreasing timestamp order (the order produced by in-order adds) and
every valid query, repeatedly reissuing the query with each returned
`nextCursor` until it is absent yields exactly the filtered candidate
list — every sample with timestamp in `[from, to)`, in non-decreasing
timestamp order with ties in insertion order, no duplicates or gaps —
and every response's `totalAvailable` is the filtered count; moreover a
call whose cursor offset is at or past the end returns an empty page
with no `nextCursor` (the "fourth call" of the limit-1-over-3 scenario). -/
theorem repo_pagination_complete_on_sorted_state
    (r : Repo) (q : HistoryQuery) (L fuel : ℕ)
    (hsorted : TsSorted r.buffer)
    (hL : resolveLimit q.limit = some L) (hL1 : 1 ≤ L)
    (hfuel : (candidatesOf r q).length ≤ fuel) :
    List.flatten ((collectPages r q fuel none).map HistoryResult.samples) =
      candidatesOf r q ∧
    (∀ x : Sample, x ∈ candidatesOf r q ↔
      x ∈ r.buffer ∧ (∀ f ∈ q.fromTs, f ≤ x.timestamp) ∧
        (∀ t ∈ q.toTs, x.timestamp < t)) ∧
    TsSorted (candidatesOf r q) ∧
    (∀ res ∈ collectPages r q fuel none,
      res.totalAvailable = (candidatesOf r q).length) ∧
    (∀ k : ℕ, (candidatesOf r q).length ≤ k →
      repoQuery r { q with cursor := some (CursorTok.num (k : ℤ)) } =
        { samples := [], nextCursor := none,
          totalAvailable := (candidatesOf r q).length }) := by
  obtain ⟨hjoin, htot⟩ := collectPages_spec r q L hL hL1 fuel 0 none rfl (by omega)
  refine ⟨by simpa using hjoin, fun x => mem_candidatesOf r q x,
    tsSorted_candidatesOf q hsorted, htot, ?_⟩
  intro k hk
  rw [repoQuery_eval r q (some (CursorTok.num (k : ℤ))) k L hL rfl]
  rw [List.drop_eq_nil_of_le hk, List.take_nil]
  rw [if_neg (by simp; omega)]

/-- Witness for C4 (amended): a 3-sample sorted repository queried with
`limit = 1`; the pagination loop (fuel 3) returns the full set in order,
every response reports `totalAvailable = 3`, and the call at offset 3
returns an empty page with no cursor. -/
theorem repo_pagination_witness :
    List.flatten ((collectPages
        (repoAddAll (emptyRepo 3600000) [mkSample 1, mkSample 2, mkSample 3])
        { fromTs := none, toTs := none, limit := some 1, cursor := none }
        3 none).map HistoryResult.samples) =
      candidatesOf (repoAddAll (emptyRepo 3600000) [mkSample 1, mkSample 2, mkSample 3])
        { fromTs := none, toTs := none, limit := some 1, cursor := none } ∧
    (∀ x : Sample, x ∈ candidatesOf
        (repoAddAll (emptyRepo 3600000) [mkSample 1, mkSample 2, mkSample 3])
        { fromTs := none, toTs := none, limit := some 1, cursor := none } ↔
      x ∈ (repoAddAll (emptyRepo 3600000) [mkSample 1, mkSample 2, mkSample 3]).buffer ∧
        (∀ f ∈ (none : Option ℚ), f ≤ x.timestamp) ∧
        (∀ t ∈ (none : Option ℚ), x.timestamp < t)) ∧
    TsSorted (candidatesOf
      (repoAddAll (emptyRepo 3600000) [mkSample 1, mkSample 2, mkSample 3])
      { fromTs := none, toTs := none, limit := some 1, cursor := none }) ∧
    (∀ res ∈ collectPages
        (repoAddAll (emptyRepo 3600000) [mkSample 1, mkSample 2, mkSample 3])
        { fromTs := none, toTs := none, limit := some 1, cursor := none } 3 none,
      res.totalAvailable = (candidatesOf
        (repoAddAll (emptyRepo 3600000) [mkSample 1, mkSample 2, mkSample 3])
        { fromTs := none, toTs := none, limit := some 1, cursor := none }).length) ∧
    (∀ k : ℕ, (candidatesOf
        (repoAddAll (emptyRepo 3600000) [mkSample 1, mkSample 2, mkSample 3])
        { fromTs := none, toTs := none, limit := some 1, cursor := none }).length ≤ k →
      repoQuery (repoAddAll (emptyRepo 3600000) [mkSample 1, mkSample 2, mkSample 3])
        { fromTs := none, toTs := none, limit := some 1,
          cursor := some (CursorTok.num (k : ℤ)) } =
        { samples := [], nextCursor := none,
          totalAvailable := (candidatesOf
            (repoAddAll (emptyRepo 3600000) [mkSample 1, mkSample 2, mkSample 3])
            { fromTs := none, toTs := none, limit := some 1,
              cursor := none }).length }) :=
  repo_pagination_complete_on_sorted_state
    (repoAddAll (emptyRepo 3600000) [mkSample 1, mkSample 2, mkSample 3])
    { fromTs := none, toTs := none, limit := some 1, cursor := none } 1 3
    (by norm_num [repoAddAll, repoAdd, capDrop, emptyRepo, isValidSample,
      mkSample, TsSorted, List.dropWhile])
    (by norm_num [resolveLimit]) (le_refl 1)
    (by norm_num [candidatesOf, timeFilter, repoAddAll, repoAdd, capDrop,
      emptyRepo, isValidSample, mkSample, List.dropWhile])

/-! ### Query error handling (claim C7) -/

/-- C7 as stated is refuted on the code, in both halves.
First half: a cursor token decoding to the integer −1 — not decodable to
a *valid* offset, hence malformed in the claim's sense — is not treated
as offset 0: on a 2-sample repository with `limit = 1` it yields an
empty page (JS `slice(-1, 0)`) *with* a `nextCursor`, where offset 0
yields the first sample.  Second half: an out-of-range `limit = 0` does
not yield a structured validation error: it returns the plain result
`{samples: [], totalAvailable: size}`, byte-identical to the successful
response of a valid exhausted query (`limit = 1`, cursor offset 5) —
`HistoryResult` has no error field at all. -/
theorem query_cursor_error_handling_violated :
    (repoQuery (repoAddAll (emptyRepo 3600000) [mkSample 1, mkSample 2])
        { fromTs := none, toTs := none, limit := some 1,
          cursor := some (CursorTok.num (-1)) } ≠
      repoQuery (repoAddAll (emptyRepo 3600000) [mkSample 1, mkSample 2])
        { fromTs := none, toTs := none, limit := some 1, cursor := none }) ∧
    (repoQuery (repoAddAll (emptyRepo 3600000) [mkSample 1, mkSample 2])
        { fromTs := none, toTs := none, limit := some 0, cursor := none } =
      repoQuery (repoAddAll (emptyRepo 3600000) [mkSample 1, mkSample 2])
        { fromTs := none, toTs := none, limit := some 1,
          cursor := some (CursorTok.num 5) }) := by
  constructor
  · norm_num [repoQuery, repoAddAll, repoAdd, capDrop, emptyRepo, isValidSample,
      mkSample, resolveLimit, cursorOffset, candidatesOf, timeFilter, jsSlice,
      List.dropWhile, HistoryResult.mk.injEq]
  · norm_num [repoQuery, repoAddAll, repoAdd, capDrop, emptyRepo, isValidSample,
      mkSample, resolveLimit, cursorOffset, candidatesOf, timeFilter, jsSlice,
      List.dropWhile]

/-- C7 amended: a cursor whose decoded text does not `parseInt` to a
nonzero integer is treated exactly as offset 0 (a negative-integer
cursor instead becomes a negative JS slice offset); and a limit outside
`[1,500]` or non-integer never throws and never yields a partial page —
it yields the fixed plain result
`{samples: [], nextCursor: absent, totalAvailable: buffer size}` (not a
distinguished error value). -/
theorem query_error_handling_amended :
    (∀ (r : Repo) (q : HistoryQuery),
      repoQuery r { q with cursor := some CursorTok.junk } =
        repoQuery r { q with cursor := none }) ∧
    (∀ (r : Repo) (q : HistoryQuery),
      repoQuery r { q with cursor := some (CursorTok.num 0) } =
        repoQuery r { q with cursor := none }) ∧
    (∀ (r : Repo) (q : HistoryQuery) (l : ℚ), q.limit = some l →
      ¬(l.den = 1 ∧ 1 ≤ l ∧ l ≤ 500) →
      repoQuery r q =
        { samples := [], nextCursor := none,
          totalAvailable := r.buffer.length }) := by
  refine ⟨fun r q => rfl, fun r q => rfl, fun r q l hql hl => ?_⟩
  have hnone : resolveLimit q.limit = none := by
    rw [hql]
    show (if l.den = 1 ∧ 1 ≤ l ∧ l ≤ 500 then some l.num.toNat else none) = none
    rw [if_neg hl]
  unfold repoQuery
  rw [hnone]

/-- Witness for C7 (amended): a junk cursor behaves as offset 0 on a
concrete repository, and `limit = 0` on a 1-sample repository returns
the plain empty result with `totalAvailable = 1`. -/
theorem query_error_handling_witness :
    (repoQuery (repoAddAll (emptyRepo 3600000) [mkSample 1])
        { fromTs := none, toTs := none, limit := none,
          cursor := some CursorTok.junk } =
      repoQuery (repoAddAll (emptyRepo 3600000) [mkSample 1])
        { fromTs := none, toTs := none, limit := none, cursor := none }) ∧
    (repoQuery (repoAddAll (emptyRepo 3600000) [mkSample 1])
        { fromTs := none, toTs := none, limit := some 0, cursor := none } =
      { samples := [], nextCursor := none,
        totalAvailable := (repoAddAll (emptyRepo 3600000) [mkSample 1]).buffer.length }) :=
  ⟨query_error_handling_amended.1 (repoAddAll (emptyRepo 3600000) [mkSample 1])
      { fromTs := none, toTs := none, limit := none, cursor := none },
   query_error_handling_amended.2.2 (repoAddAll (emptyRepo 3600000) [mkSample 1])
      { fromTs := none, toTs := none, limit := some 0, cursor := none } 0 rfl
      (fun h => absurd h.2.1 (by norm_num))⟩

/-! ### Alert engine (`lib/alerts/alert-engine.ts`)

The JS state is a pair of string-keyed records plus a history array; the
only keys ever used are the five fixed rule ids, so the records are
embedded as five-field structures (field ↔ rule id noted on each field).
`evaluateAlertsFull` returns both the `EvaluateResult` and the value of
the caller's `prev` object *after* the call: the source spreads
(`{...prev.active}`, `{...prev.runtimes}`) into fresh records but the
`Alert` objects and `InternalRuleRuntime` objects inside are shared by
reference, and `upsertActive` and the runtime writes mutate them in
place, so the post-call view of `prev` can differ from its pre-call
value.  Presentation-only `message` strings (built with `toFixed`) are
not modelled; `Date.now()` inside `deactivateAlert` is the explicit
`wall` argument. -/

inductive AlertSeverity where
  | warning
  | critical
deriving DecidableEq, Repr

/-- Embeds `Alert` of `types/telemetry.ts` (minus the presentation `message`). -/
structure Alert where
  id : String
  vehicleId : String
  ruleId : String
  severity : AlertSeverity
  firstSeen : ℚ
  lastSeen : ℚ
  active : Bool
deriving DecidableEq, Repr

/-- Embeds `InternalRuleRuntime`. -/
structure RuleRuntime where
  conditionActiveSince : Option ℚ
  lastSeverity : Option AlertSeverity
deriving DecidableEq, Repr

/-- The `{}` of `runtimes[id] ||= {}`. -/
def emptyRuntime : RuleRuntime := { conditionActiveSince := none, lastSeverity := none }

/-- Embeds `prev.active` / result `active`, keyed by the five rule ids:
`high-rpm`, `coolant-temp`, `tire-delta`, `battery-soc`,
`brake-throttle-overlap`. -/
structure ActiveMap where
  highRpm : Option Alert
  coolantTemp : Option Alert
  tireDelta : Option Alert
  batterySoc : Option Alert
  brakeThrottle : Option Alert
deriving DecidableEq, Repr

/-- Embeds `prev.runtimes` / result `runtimes`, same keys. -/
structure RuntimeMap where
  highRpm : Option RuleRuntime
  coolantTemp : Option RuleRuntime
  tireDelta : Option RuleRuntime
  batterySoc : Option RuleRuntime
  brakeThrottle : Option RuleRuntime
deriving DecidableEq, Repr

/-- Embeds `AlertEngineState`. -/
structure AlertEngineState where
  active : ActiveMap
  history : List Alert
  runtimes : RuntimeMap
deriving DecidableEq, Repr

/-- Embeds `EvaluateResult`. -/
structure EvaluateResult where
  active : ActiveMap
  history : List Alert
  runtimes : RuntimeMap
  newlyCritical : List Alert
deriving DecidableEq, Repr

/-- Source `initialAlertEngineState()`. -/
def initialAlertEngineState : AlertEngineState :=
  { active := ⟨none, none, none, none, none⟩, history := [],
    runtimes := ⟨none, none, none, none, none⟩ }

/-- Source `upsertActive`: update the existing alert in place (severity change
flagged) or create one with `firstSeen = lastSeen = sample.timestamp`.
Returns the (shared) alert object and the `changed` flag. -/
def upsertActive (existing : Option Alert) (id : String) (severity : AlertSeverity)
    (s : Sample) : Alert × Bool :=
  match existing with
  | some a =>
    ({ a with severity := severity, lastSeen := s.timestamp, active := true },
     decide (a.severity ≠ severity))
  | none =>
    ({ id := id, vehicleId := s.vehicleId, ruleId := id, severity := severity,
       firstSeen := s.timestamp, lastSeen := s.timestamp, active := true }, true)

/-- Source `clearIfActive`: when an active alert exists for the rule, remove it
from the active record and produce the deactivated *copy*
(`deactivateAlert` spreads into a fresh object with
`lastSeen = Date.now()`) destined for the history list.  Returns the new
active entry and the pushed copy, if any. -/
def clearIfActive (existing : Option Alert) (wall : ℚ) :
    Option Alert × Option Alert :=
  match existing with
  | some a =>
    if a.active then (none, some { a with active := false, lastSeen := wall })
    else (existing, none)
  | none => (none, none)

/-- Source `history.push(deactivated)` followed by
`while (history.length > HISTORY_CAP) history.shift()` with cap 300. -/
def historyCapPush (history : List Alert) (a : Alert) : List Alert :=
  List.drop ((history ++ [a]).length - 300) (history ++ [a])

/-- Apply a rule's optional history push. -/
def pushHistory (h : List Alert) : Option Alert → List Alert
  | none => h
  | some d => historyCapPush h d

/-- Apply a rule's optional `newlyCritical.push`. -/
def pushCrit (c : List Alert) : Option Alert → List Alert
  | none => c
  | some a => c ++ [a]

/-- Per-rule outcome: the rule's result `active[id]` and `runtimes[id]`
entries, the post-call view of `prev.active[id]` / `prev.runtimes[id]`
under JS aliasing, the deactivated alert pushed to history (if any) and
the alert pushed to `newlyCritical` (if any). -/
structure RuleStepOut where
  act : Option Alert
  prevAct : Option Alert
  rt : Option RuleRuntime
  prevRt : Option RuleRuntime
  cleared : Option Alert
  newlyCrit : Option Alert
deriving DecidableEq, Repr

/-- The shared upsert branch of every rule: severity `severity` fired,
the alert is upserted (mutating the shared object when one exists — the
post-`prev` entry is the same updated object), the runtime becomes
`rt1`, `newlyCritical` receives the alert iff the upsert reported a
change and the severity is critical. -/
def fireStep (id : String) (severity : AlertSeverity) (s : Sample)
    (act0 : Option Alert) (rt1 : RuleRuntime) (rt0 : Option RuleRuntime) :
    RuleStepOut :=
  { act := some (upsertActive act0 id severity s).1,
    prevAct := if act0.isSome then some (upsertActive act0 id severity s).1
               else none,
    rt := some rt1,
    prevRt := if rt0.isSome then some rt1 else none,
    cleared := none,
    newlyCrit := if (upsertActive act0 id severity s).2 &&
                    decide (severity = AlertSeverity.critical)
                 then some (upsertActive act0 id severity s).1 else none }

/-- The shared clear branch: `clearIfActive` (the deactivated *copy*
goes to history; the original object is untouched, so `prev` still
points at it), runtime becomes `rt1`. -/
def clearStep (act0 : Option Alert) (wall : ℚ) (rt1 : RuleRuntime)
    (rt0 : Option RuleRuntime) : RuleStepOut :=
  { act := (clearIfActive act0 wall).1, prevAct := act0,
    rt := some rt1, prevRt := if rt0.isSome then some rt1 else none,
    cleared := (clearIfActive act0 wall).2, newlyCrit := none }

/-- The shared no-op branch (no severity, no clear): only the `||= {}`
materialisation of the runtime record is visible in the result. -/
def keepStep (act0 : Option Alert) (rt0 : Option RuleRuntime) : RuleStepOut :=
  { act := act0, prevAct := act0, rt := some (rt0.getD emptyRuntime),
    prevRt := rt0, cleared := none, newlyCrit := none }

/-- The `!rt.conditionActiveSince` resolution of a duration rule: the JS
falsy test treats both an unset field and a stored timestamp 0 as
"start now". -/
def sinceOf (rt : RuleRuntime) (s : Sample) : ℚ :=
  match rt.conditionActiveSince with
  | none => s.timestamp
  | some t => if t = 0 then s.timestamp else t

/-- Severity of a duration rule from the held duration. -/
def durSeverity (warnMs critMs duration : ℚ) : Option AlertSeverity :=
  if duration ≥ critMs then some AlertSeverity.critical
  else if duration ≥ warnMs then some AlertSeverity.warning
  else none

/-- The `durationRule` inner function of `evaluateAlerts`: while the
condition holds, track `conditionActiveSince` and fire
warning/critical once the held duration reaches `warnMs`/`critMs`; the
instant the condition is false, reset the timer and clear any active
alert. -/
def durationRuleStep (id : String) (cond : Bool) (warnMs critMs : ℚ)
    (s : Sample) (wall : ℚ) (act0 : Option Alert) (rt0 : Option RuleRuntime) :
    RuleStepOut :=
  if cond then
    match durSeverity warnMs critMs
        (s.timestamp - sinceOf (rt0.getD emptyRuntime) s) with
    | some severity =>
      fireStep id severity s act0
        { conditionActiveSince := some (sinceOf (rt0.getD emptyRuntime) s),
          lastSeverity := some severity } rt0
    | none =>
      { act := act0, prevAct := act0,
        rt := some { rt0.getD emptyRuntime with
          conditionActiveSince := some (sinceOf (rt0.getD emptyRuntime) s) },
        prevRt := if rt0.isSome then
            some { rt0.getD emptyRuntime with
              conditionActiveSince := some (sinceOf (rt0.getD emptyRuntime) s) }
          else none,
        cleared := none, newlyCrit := none }
  else
    clearStep act0 wall
      { rt0.getD emptyRuntime with conditionActiveSince := none } rt0

/-- Rule 2, `coolant-temp`: `>120` critical, `>110` warning; on no
severity, clear only when `rt.lastSeverity` is set and `v < 105`. -/
def coolantStep (s : Sample) (wall : ℚ) (act0 : Option Alert)
    (rt0 : Option RuleRuntime) : RuleStepOut :=
  match (if s.coolantC > 120 then some AlertSeverity.critical
         else if s.coolantC > 110 then some AlertSeverity.warning
         else none : Option AlertSeverity) with
  | some severity =>
    fireStep "coolant-temp" severity s act0
      { rt0.getD emptyRuntime with lastSeverity := some severity } rt0
  | none =>
    if (rt0.getD emptyRuntime).lastSeverity.isSome ∧ s.coolantC < 105 then
      clearStep act0 wall
        { rt0.getD emptyRuntime with lastSeverity := none } rt0
    else keepStep act0 rt0

/-- Computes the `Math.max`/`Math.min` spread over the four tire temperatures. -/
def tireDeltaOf (s : Sample) : ℚ :=
  max (max (max s.tireFL s.tireFR) s.tireRL) s.tireRR -
    min (min (min s.tireFL s.tireFR) s.tireRL) s.tireRR

/-- Rule 3, `tire-delta`: `>20` critical, `>15` warning; clear when
`rt.lastSeverity` is set and the delta is `< 12`. -/
def tireStep (s : Sample) (wall : ℚ) (act0 : Option Alert)
    (rt0 : Option RuleRuntime) : RuleStepOut :=
  match (if tireDeltaOf s > 20 then some AlertSeverity.critical
         else if tireDeltaOf s > 15 then some AlertSeverity.warning
         else none : Option AlertSeverity) with
  | some severity =>
    fireStep "tire-delta" severity s act0
      { rt0.getD emptyRuntime with lastSeverity := some severity } rt0
  | none =>
    if (rt0.getD emptyRuntime).lastSeverity.isSome ∧ tireDeltaOf s < 12 then
      clearStep act0 wall
        { rt0.getD emptyRuntime with lastSeverity := none } rt0
    else keepStep act0 rt0

/-- Rule 4, `battery-soc`: `<8` critical, `<15` warning; on no severity
and a recorded `lastSeverity`, clear when `soc > 11` (after critical) or
`soc > 17` (after warning). -/
def batteryStep (s : Sample) (wall : ℚ) (act0 : Option Alert)
    (rt0 : Option RuleRuntime) : RuleStepOut :=
  match (if s.stateOfCharge < 8 then some AlertSeverity.critical
         else if s.stateOfCharge < 15 then some AlertSeverity.warning
         else none : Option AlertSeverity) with
  | some severity =>
    fireStep "battery-soc" severity s act0
      { rt0.getD emptyRuntime with lastSeverity := some severity } rt0
  | none =>
    if ((rt0.getD emptyRuntime).lastSeverity = some AlertSeverity.critical ∧
          s.stateOfCharge > 11) ∨
        ((rt0.getD emptyRuntime).lastSeverity = some AlertSeverity.warning ∧
          s.stateOfCharge > 17) then
      clearStep act0 wall
        { rt0.getD emptyRuntime with lastSeverity := none } rt0
    else keepStep act0 rt0

/-- Source `evaluateAlerts(sample, prev)` of `alert-engine.ts`, with the five
rule blocks in source order threading the shared history and
`newlyCritical` arrays, returning both the result and the post-call view
of `prev` (see the section comment). -/
def evaluateAlertsFull (s : Sample) (wall : ℚ) (prev : AlertEngineState) :
    EvaluateResult × AlertEngineState :=
  let o1 := durationRuleStep "high-rpm" (decide (s.rpm / 7000 > 0.95)) 5000 8000
              s wall prev.active.highRpm prev.runtimes.highRpm
  let h1 := pushHistory prev.history o1.cleared
  let c1 := pushCrit [] o1.newlyCrit
  let o2 := coolantStep s wall prev.active.coolantTemp prev.runtimes.coolantTemp
  let h2 := pushHistory h1 o2.cleared
  let c2 := pushCrit c1 o2.newlyCrit
  let o3 := tireStep s wall prev.active.tireDelta prev.runtimes.tireDelta
  let h3 := pushHistory h2 o3.cleared
  let c3 := pushCrit c2 o3.newlyCrit
  let o4 := batteryStep s wall prev.active.batterySoc prev.runtimes.batterySoc
  let h4 := pushHistory h3 o4.cleared
  let c4 := pushCrit c3 o4.newlyCrit
  let o5 := durationRuleStep "brake-throttle-overlap"
              (decide (s.throttlePct > 20 ∧ s.brakePct > 20)) 3000 5000
              s wall prev.active.brakeThrottle prev.runtimes.brakeThrottle
  let h5 := pushHistory h4 o5.cleared
  let c5 := pushCrit c4 o5.newlyCrit
  ({ active := ⟨o1.act, o2.act, o3.act, o4.act, o5.act⟩,
     history := h5,
     runtimes := ⟨o1.rt, o2.rt, o3.rt, o4.rt, o5.rt⟩,
     newlyCritical := c5 },
   { active := ⟨o1.prevAct, o2.prevAct, o3.prevAct, o4.prevAct, o5.prevAct⟩,
     history := prev.history,
     runtimes := ⟨o1.prevRt, o2.prevRt, o3.prevRt, o4.prevRt, o5.prevRt⟩ })

/-- The result of `evaluateAlerts` (what the caller consumes). -/
def evaluateAlerts (s : Sample) (wall : ℚ) (prev : AlertEngineState) :
    EvaluateResult :=
  (evaluateAlertsFull s wall prev).1

/-- Fold step of a per-vehicle evaluation stream: feed the result's
`{active, history, runtimes}` back in as the next prior state, as the
store does. -/
def nextAlertState (prev : AlertEngineState) (i : Sample × ℚ) : AlertEngineState :=
  { active := (evaluateAlerts i.1 i.2 prev).active,
    history := (evaluateAlerts i.1 i.2 prev).history,
    runtimes := (evaluateAlerts i.1 i.2 prev).runtimes }

/-- Run the alert engine over a stream of `(sample, wallClock)` pairs
from the initial state. -/
def runAlerts (l : List (Sample × ℚ)) : AlertEngineState :=
  l.foldl nextAlertState initialAlertEngineState

/-! ### Claim C2: `evaluateAlerts` and the caller's `prev` state -/

/-- A prior state holding one active coolant warning (as left behind by
an earlier `evaluateAlerts` call at sample time 100). -/
def c2Alert : Alert :=
  { id := "coolant-temp", vehicleId := "v", ruleId := "coolant-temp",
    severity := AlertSeverity.warning, firstSeen := 100, lastSeen := 100,
    active := true }

/-- The prior `AlertEngineState` for the C2 evaluation. -/
def c2Prev : AlertEngineState :=
  { active := ⟨none, some c2Alert, none, none, none⟩,
    history := [],
    runtimes := ⟨none, some ⟨none, some AlertSeverity.warning⟩, none, none, none⟩ }

/-- C2 is refuted on the code: `evaluateAlerts` shallow-copies
`prev.active`/`prev.runtimes` but the `Alert` and runtime objects inside
are shared, and the upsert path mutates them — after evaluating a
coolant reading of 125 °C against a state holding an active coolant
warning, the alert reachable from `prev.active` has been upgraded to
critical (and its `lastSeen` advanced), and the runtime record reachable
from `prev.runtimes` has `lastSeverity` changed, so `prev` is not left
unchanged. -/
theorem evaluateAlerts_mutates_prev_state :
    ((evaluateAlertsFull { mkSample 200 with coolantC := 125 } 0 c2Prev).2.active.coolantTemp ≠
      c2Prev.active.coolantTemp) ∧
    ((evaluateAlertsFull { mkSample 200 with coolantC := 125 } 0 c2Prev).2.runtimes.coolantTemp ≠
      c2Prev.runtimes.coolantTemp) := by
  constructor
  · norm_num [evaluateAlertsFull, coolantStep, fireStep, upsertActive, c2Prev,
      c2Alert, mkSample, Alert.mk.injEq]
  · norm_num [evaluateAlertsFull, coolantStep, fireStep, upsertActive, c2Prev,
      c2Alert, mkSample, RuleRuntime.mk.injEq]
    intro h
    cases h

/-! ### Per-rule projections of the evaluation fold (claims C5, C6) -/

lemma foldl_proj {σ τ ι : Type} (f : σ → ι → σ) (g : τ → ι → τ) (proj : σ → τ)
    (h : ∀ s i, proj (f s i) = g (proj s) i) :
    ∀ (l : List ι) (s : σ), proj (l.foldl f s) = l.foldl g (proj s) := by
  intro l
  induction l with
  | nil => intro s; rfl
  | cons i t ih =>
    intro s
    rw [List.foldl_cons, List.foldl_cons, ih, h]

/-- Restriction of one evaluation step to a single rule's
`(active entry, runtime entry)` pair. -/
def ruleMini (f : Sample → ℚ → Option Alert → Option RuleRuntime → RuleStepOut)
    (m : Option Alert × Option RuleRuntime) (i : Sample × ℚ) :
    Option Alert × Option RuleRuntime :=
  ((f i.1 i.2 m.1 m.2).act, (f i.1 i.2 m.1 m.2).rt)

/-- The high-rpm rule step as seen by `evaluateAlerts`. -/
def highRpmRule (s : Sample) (wall : ℚ) (act0 : Option Alert)
    (rt0 : Option RuleRuntime) : RuleStepOut :=
  durationRuleStep "high-rpm" (decide (s.rpm / 7000 > 0.95)) 5000 8000 s wall act0 rt0

/-- The brake-throttle-overlap rule step as seen by `evaluateAlerts`. -/
def brakeThrottleRule (s : Sample) (wall : ℚ) (act0 : Option Alert)
    (rt0 : Option RuleRuntime) : RuleStepOut :=
  durationRuleStep "brake-throttle-overlap"
    (decide (s.throttlePct > 20 ∧ s.brakePct > 20)) 3000 5000 s wall act0 rt0

lemma runAlerts_proj_highRpm (l : List (Sample × ℚ)) :
    ((runAlerts l).active.highRpm, (runAlerts l).runtimes.highRpm) =
      l.foldl (ruleMini highRpmRule) (none, none) :=
  foldl_proj nextAlertState (ruleMini highRpmRule)
    (fun st => (st.active.highRpm, st.runtimes.highRpm))
    (fun _ _ => rfl) l initialAlertEngineState

lemma runAlerts_proj_brakeThrottle (l : List (Sample × ℚ)) :
    ((runAlerts l).active.brakeThrottle, (runAlerts l).runtimes.brakeThrottle) =
      l.foldl (ruleMini brakeThrottleRule) (none, none) :=
  foldl_proj nextAlertState (ruleMini brakeThrottleRule)
    (fun st => (st.active.brakeThrottle, st.runtimes.brakeThrottle))
    (fun _ _ => rfl) l initialAlertEngineState

lemma runAlerts_proj_coolant (l : List (Sample × ℚ)) :
    ((runAlerts l).active.coolantTemp, (runAlerts l).runtimes.coolantTemp) =
      l.foldl (ruleMini coolantStep) (none, none) :=
  foldl_proj nextAlertState (ruleMini coolantStep)
    (fun st => (st.active.coolantTemp, st.runtimes.coolantTemp))
    (fun _ _ => rfl) l initialAlertEngineState

lemma runAlerts_proj_tire (l : List (Sample × ℚ)) :
    ((runAlerts l).active.tireDelta, (runAlerts l).runtimes.tireDelta) =
      l.foldl (ruleMini tireStep) (none, none) :=
  foldl_proj nextAlertState (ruleMini tireStep)
    (fun st => (st.active.tireDelta, st.runtimes.tireDelta))
    (fun _ _ => rfl) l initialAlertEngineState

lemma runAlerts_proj_battery (l : List (Sample × ℚ)) :
    ((runAlerts l).active.batterySoc, (runAlerts l).runtimes.batterySoc) =
      l.foldl (ruleMini batteryStep) (none, none) :=
  foldl_proj nextAlertState (ruleMini batteryStep)
    (fun st => (st.active.batterySoc, st.runtimes.batterySoc))
    (fun _ _ => rfl) l initialAlertEngineState

/-! ### Claim C5: duration-rule boundary behaviour -/

/-- One step of the reference "start of the current true-run" tracker:
the timestamp of the first sample of the maximal suffix of consecutive
condition-true samples. -/
def condStartStep (cond : Sample → Bool) (acc : Option ℚ) (s : Sample) : Option ℚ :=
  if cond s then some (acc.getD s.timestamp) else none

/-- Start of the current true-run over a whole stream. -/
def condStart (cond : Sample → Bool) (l : List Sample) : Option ℚ :=
  l.foldl (condStartStep cond) none

lemma condStart_append (cond : Sample → Bool) (l : List Sample) (s : Sample) :
    condStart cond (l ++ [s]) = condStartStep cond (condStart cond l) s := by
  unfold condStart
  rw [List.foldl_append, List.foldl_cons, List.foldl_nil]

lemma condStart_mem (cond : Sample → Bool) :
    ∀ (l : List Sample) (t0 : ℚ), condStart cond l = some t0 →
      ∃ x ∈ l, x.timestamp = t0 := by
  intro l
  induction l using List.reverseRecOn with
  | nil => intro t0 h; cases h
  | append_singleton l s ih =>
    intro t0 h
    rw [condStart_append] at h
    unfold condStartStep at h
    by_cases hc : cond s
    · rw [if_pos hc] at h
      cases hacc : condStart cond l with
      | none =>
        rw [hacc] at h
        exact ⟨s, by simp, by simpa using h⟩
      | some t1 =>
        rw [hacc] at h
        obtain ⟨x, hx, hxts⟩ := ih t1 hacc
        exact ⟨x, by simp [hx], by rw [hxts]; simpa using h⟩
    · rw [if_neg hc] at h; cases h

/-- What claim C5 asserts about the active entry of a duration rule,
as a function of the start of the current true-run and the last
processed sample: no active alert below `warnMs` of held duration (or
when the condition is false), a warning alert in `[warnMs, critMs)`, a
critical alert at `critMs` and beyond. -/
def DurCharacter (warn crit : ℚ) (start : Option ℚ) (last : Option Sample)
    (act : Option Alert) : Prop :=
  match start, last with
  | some t0, some ls =>
    (crit ≤ ls.timestamp - t0 →
      ∃ a, act = some a ∧ a.severity = AlertSeverity.critical ∧ a.active = true) ∧
    (warn ≤ ls.timestamp - t0 → ls.timestamp - t0 < crit →
      ∃ a, act = some a ∧ a.severity = AlertSeverity.warning ∧ a.active = true) ∧
    (ls.timestamp - t0 < warn → act = none)
  | _, _ => act = none

/-- Full induction invariant for a duration rule: the stored
`conditionActiveSince` is exactly the start of the current true-run, and
the active entry is characterised by the held duration. -/
def DurInvariant (cond : Sample → Bool) (warn crit : ℚ) (p : List Sample)
    (m : Option Alert × Option RuleRuntime) : Prop :=
  (Option.map RuleRuntime.conditionActiveSince m.2 =
    if p.isEmpty then none else some (condStart cond p)) ∧
  DurCharacter warn crit (condStart cond p) p.getLast? m.1

lemma durCharacter_active {warn crit : ℚ} {start : Option ℚ}
    {last : Option Sample} {act : Option Alert}
    (h : DurCharacter warn crit start last act) :
    ∀ a, act = some a → a.active = true := by
  intro a ha
  rcases start with _ | t0 <;> rcases last with _ | ls
  · rw [h] at ha; cases ha
  · rw [h] at ha; cases ha
  · rw [h] at ha; cases ha
  · obtain ⟨h1, h2, h3⟩ := h
    rcases le_or_lt crit (ls.timestamp - t0) with hd | hd
    · obtain ⟨a', ha', _, hact⟩ := h1 hd
      rw [ha'] at ha; cases ha; exact hact
    · rcases le_or_lt warn (ls.timestamp - t0) with hw | hw
      · obtain ⟨a', ha', _, hact⟩ := h2 hw hd
        rw [ha'] at ha; cases ha; exact hact
      · rw [h3 hw] at ha; cases ha

lemma durInvariant_step (id : String) (cond : Sample → Bool) {warn crit : ℚ}
    (hwarn : 0 < warn) (hwc : warn ≤ crit)
    (p : List Sample) (m : Option Alert × Option RuleRuntime)
    (s : Sample) (w : ℚ)
    (hposs : 0 < s.timestamp) (hpost : ∀ x ∈ p, 0 < x.timestamp)
    (hmono : ∀ x ∈ p, x.timestamp ≤ s.timestamp)
    (hinv : DurInvariant cond warn crit p m) :
    DurInvariant cond warn crit (p ++ [s])
      (ruleMini (fun s' w' a r => durationRuleStep id (cond s') warn crit s' w' a r)
        m (s, w)) := by
  obtain ⟨hrt, hchar⟩ := hinv
  unfold DurInvariant ruleMini
  simp only
  unfold durationRuleStep
  have hne : (p ++ [s]).isEmpty = false := by simp
  have hlast : (p ++ [s]).getLast? = some s := by simp
  by_cases hc : cond s
  · rw [if_pos hc]
    have hcs : condStart cond (p ++ [s]) =
        some ((condStart cond p).getD s.timestamp) := by
      rw [condStart_append]; unfold condStartStep; rw [if_pos hc]
    cases hp : condStart cond p with
    | none =>
      -- fresh run starting at s
      have hm2cas : ∀ rt, m.2 = some rt → rt.conditionActiveSince = none := by
        intro rt hrt2
        rw [hrt2] at hrt
        cases hpe : p.isEmpty <;> simp [hpe, hp] at hrt
        exact hrt
      have hsince : sinceOf (m.2.getD emptyRuntime) s = s.timestamp := by
        rcases hm : m.2 with _ | rt
        · rfl
        · unfold sinceOf
          rw [Option.getD_some, hm2cas rt hm]
      have hdur : durSeverity warn crit (s.timestamp - sinceOf (m.2.getD emptyRuntime) s) =
          none := by
        rw [hsince]
        unfold durSeverity
        rw [if_neg (by linarith), if_neg (by linarith)]
      rw [hdur]
      have hact0 : m.1 = none := by
        rcases hlp : p.getLast? with _ | lp
        · unfold DurCharacter at hchar
          rw [hp, hlp] at hchar; exact hchar
        · unfold DurCharacter at hchar
          rw [hp, hlp] at hchar; exact hchar
      constructor
      · simp only [Option.map_some']
        rw [hne, hcs, hp, hsince]
        rfl
      · rw [hcs, hp, hlast]
        unfold DurCharacter
        refine ⟨fun hd => absurd hd (by simp [Option.getD]; linarith), ?_, ?_⟩
        · intro hd _
          exact absurd hd (by simp [Option.getD]; linarith)
        · intro _; exact hact0
    | some t0 =>
      have hpne : p.isEmpty = false := by
        cases p with
        | nil =>
          rw [show condStart cond ([] : List Sample) = none from rfl] at hp
          cases hp
        | cons a t => rfl
      have hm2 : ∃ rt, m.2 = some rt ∧ rt.conditionActiveSince = some t0 := by
        rcases hm : m.2 with _ | rt
        · rw [hm] at hrt; simp [hpne, hp] at hrt
        · refine ⟨rt, rfl, ?_⟩
          rw [hm] at hrt
          simp [hpne, hp] at hrt
          exact hrt
      obtain ⟨rt, hm2eq, hcas⟩ := hm2
      obtain ⟨x, hxmem, hxts⟩ := condStart_mem cond p t0 hp
      have ht0pos : 0 < t0 := hxts ▸ hpost x hxmem
      have ht0le : t0 ≤ s.timestamp := hxts ▸ hmono x hxmem
      have hsince : sinceOf (m.2.getD emptyRuntime) s = t0 := by
        rw [hm2eq]
        unfold sinceOf
        rw [Option.getD_some, hcas]
        exact if_neg (by linarith)
      have hlp : ∃ lp, p.getLast? = some lp ∧ lp.timestamp ≤ s.timestamp := by
        cases p with
        | nil => rw [show condStart cond ([] : List Sample) = none from rfl] at hp; cases hp
        | cons a t =>
          refine ⟨(a :: t).getLast (by simp), List.getLast?_eq_getLast _ _, ?_⟩
          exact hmono _ (List.getLast_mem _)
      obtain ⟨lp, hlpeq, hlple⟩ := hlp
      rw [hsince]
      have hchar' := hchar
      unfold DurCharacter at hchar'
      rw [hp, hlpeq] at hchar'
      obtain ⟨hc1, hc2, hc3⟩ := hchar'
      rcases le_or_lt crit (s.timestamp - t0) with hd | hd
      · have : durSeverity warn crit (s.timestamp - t0) = some AlertSeverity.critical := by
          unfold durSeverity; rw [if_pos hd]
        rw [this]
        constructor
        · simp only [fireStep, Option.map_some']
          rw [hne, hcs, hp]
          rfl
        · rw [hcs, hp, hlast]
          unfold DurCharacter
          refine ⟨fun _ => ?_, fun _ h2 => absurd hd (by simp [Option.getD] at h2 ⊢; linarith), fun h3 => absurd hd (by simp [Option.getD] at h3 ⊢; linarith)⟩
          refine ⟨(upsertActive m.1 id AlertSeverity.critical s).1, rfl, ?_, ?_⟩
          · unfold upsertActive; rcases m.1 with _ | a <;> rfl
          · unfold upsertActive; rcases m.1 with _ | a <;> rfl
      · rcases le_or_lt warn (s.timestamp - t0) with hw | hw
        · have : durSeverity warn crit (s.timestamp - t0) = some AlertSeverity.warning := by
            unfold durSeverity; rw [if_neg (by linarith), if_pos hw]
          rw [this]
          constructor
          · simp only [fireStep, Option.map_some']
            rw [hne, hcs, hp]
            rfl
          · rw [hcs, hp, hlast]
            unfold DurCharacter
            refine ⟨fun h1 => absurd h1 (by simp [Option.getD]; linarith), fun _ _ => ?_, fun h3 => absurd hw (by simp [Option.getD] at h3 ⊢; linarith)⟩
            refine ⟨(upsertActive m.1 id AlertSeverity.warning s).1, rfl, ?_, ?_⟩
            · unfold upsertActive; rcases m.1 with _ | a <;> rfl
            · unfold upsertActive; rcases m.1 with _ | a <;> rfl
        · have : durSeverity warn crit (s.timestamp - t0) = none := by
            unfold durSeverity; rw [if_neg (by linarith), if_neg (by linarith)]
          rw [this]
          have hact0 : m.1 = none := hc3 (by linarith)
          constructor
          · simp only [Option.map_some']
            rw [hne, hcs, hp]
            rfl
          · rw [hcs, hp, hlast]
            unfold DurCharacter
            refine ⟨fun h1 => absurd h1 (by simp [Option.getD]; linarith), fun h2 _ => absurd h2 (by simp [Option.getD]; linarith), fun _ => hact0⟩
  · rw [if_neg hc]
    have hcs : condStart cond (p ++ [s]) = none := by
      rw [condStart_append]; unfold condStartStep; rw [if_neg hc]
    constructor
    · simp only [clearStep, Option.map_some']
      rw [hne, hcs]
      rfl
    · rw [hcs, hlast]
      unfold DurCharacter
      unfold clearStep clearIfActive
      rcases hm1 : m.1 with _ | a
      · rfl
      · have : a.active = true := durCharacter_active hchar a hm1
        simp only [this, if_pos]

lemma durInvariant_run (id : String) (cond : Sample → Bool) {warn crit : ℚ}
    (hwarn : 0 < warn) (hwc : warn ≤ crit) :
    ∀ l : List (Sample × ℚ),
      (∀ x ∈ l.map Prod.fst, 0 < x.timestamp) →
      (l.map Prod.fst).Pairwise (fun a b => a.timestamp ≤ b.timestamp) →
      DurInvariant cond warn crit (l.map Prod.fst)
        (l.foldl
          (ruleMini (fun s' w' a r => durationRuleStep id (cond s') warn crit s' w' a r))
          (none, none)) := by
  intro l
  induction l using List.reverseRecOn with
  | nil => intro _ _; exact ⟨rfl, rfl⟩
  | append_singleton l i ih =>
    obtain ⟨s, w⟩ := i
    intro hpos hmono
    rw [List.map_append] at hpos hmono
    have hpos' : ∀ x ∈ l.map Prod.fst, 0 < x.timestamp :=
      fun x hx => hpos x (by simp [hx])
    have hposs : 0 < s.timestamp := hpos s (by simp)
    have hmono' := (List.pairwise_append.mp hmono).1
    have hcross : ∀ x ∈ l.map Prod.fst, x.timestamp ≤ s.timestamp :=
      fun x hx => (List.pairwise_append.mp hmono).2.2 x hx s (by simp)
    rw [List.foldl_append, List.foldl_cons, List.foldl_nil, List.map_append]
    exact durInvariant_step id cond hwarn hwc (l.map Prod.fst) _ s w hposs hpos'
      hcross (ih hpos' hmono')

/-- A sample whose rpm puts the high-rpm condition above its 0.95
threshold (all other rule conditions quiet). -/
def hiRpmSample (t : ℚ) : Sample := { mkSample t with rpm := 7000 }

/-- A sample with throttle and brake both above 20 % (the overlap
condition; all other rule conditions quiet). -/
def ovlSample (t : ℚ) : Sample := { mkSample t with throttlePct := 50, brakePct := 50 }

/-- C5 as stated is refuted on the code, in two independent places.
(1) The JS falsy test `!rt.conditionActiveSince` mistakes a stored
timestamp 0 for "unset": with the high-rpm condition true at t=0 and
t=5000, the held duration reaches `warnMs = 5000` but no alert is
created (the timer silently restarted).  (2) For a stream whose
timestamps are not non-decreasing, an alert can be active while the
condition has held for less than `warnMs`: overlap true at t=1000,
t=9001 (critical fires) and then t=1001 — held for 1 ms by the code's
own `conditionActiveSince = 1000`, yet the critical alert remains
active. -/
theorem duration_rule_fails_at_timestamp_zero :
    ((runAlerts [(hiRpmSample 0, 0), (hiRpmSample 5000, 0)]).active.highRpm = none ∧
      decide ((hiRpmSample 0).rpm / 7000 > 0.95) = true ∧
      decide ((hiRpmSample 5000).rpm / 7000 > 0.95) = true ∧
      (hiRpmSample 5000).timestamp - (hiRpmSample 0).timestamp ≥ 5000) ∧
    ((runAlerts [(ovlSample 1000, 0), (ovlSample 9001, 0),
        (ovlSample 1001, 0)]).active.brakeThrottle ≠ none ∧
      (runAlerts [(ovlSample 1000, 0), (ovlSample 9001, 0),
        (ovlSample 1001, 0)]).runtimes.brakeThrottle =
        some ⟨some 1000, some AlertSeverity.critical⟩ ∧
      (ovlSample 1001).timestamp - 1000 < 3000) := by
  refine ⟨⟨?_, by norm_num [hiRpmSample, mkSample], by norm_num [hiRpmSample, mkSample],
      by norm_num [hiRpmSample, mkSample]⟩,
    ⟨?_, ?_, by norm_num [ovlSample, mkSample]⟩⟩
  · norm_num [runAlerts, nextAlertState, evaluateAlerts, evaluateAlertsFull,
      initialAlertEngineState, durationRuleStep, coolantStep, tireStep,
      batteryStep, fireStep, clearStep, keepStep, upsertActive, clearIfActive,
      sinceOf, durSeverity, tireDeltaOf, emptyRuntime, hiRpmSample, mkSample]
  · norm_num [runAlerts, nextAlertState, evaluateAlerts, evaluateAlertsFull,
      initialAlertEngineState, durationRuleStep, coolantStep, tireStep,
      batteryStep, fireStep, clearStep, keepStep, upsertActive, clearIfActive,
      sinceOf, durSeverity, tireDeltaOf, emptyRuntime, ovlSample, mkSample]
    simp
  · norm_num [runAlerts, nextAlertState, evaluateAlerts, evaluateAlertsFull,
      initialAlertEngineState, durationRuleStep, coolantStep, tireStep,
      batteryStep, fireStep, clearStep, keepStep, upsertActive, clearIfActive,
      sinceOf, durSeverity, tireDeltaOf, emptyRuntime, ovlSample, mkSample]

/-- C5 amended: for every stream whose timestamps are positive and
non-decreasing, the two duration rules behave exactly as claimed — the
engine's `conditionActiveSince` equals the start of the current
condition-true run (reset to unset the instant the condition goes
false), and the rule's active entry is: absent while the held duration
is under `warnMs` (and immediately after the condition goes false),
a warning alert once the duration reaches `warnMs`, a critical alert
once it reaches `critMs` (high-rpm: 5000/8000 ms at rpm > 95 % of 7000;
brake-throttle overlap: 3000/5000 ms at throttle > 20 and brake > 20). -/
theorem duration_rule_boundary_for_positive_monotone_streams :
    (∀ l : List (Sample × ℚ),
      (∀ x ∈ l.map Prod.fst, 0 < x.timestamp) →
      (l.map Prod.fst).Pairwise (fun a b => a.timestamp ≤ b.timestamp) →
      Option.map RuleRuntime.conditionActiveSince (runAlerts l).runtimes.highRpm =
        (if (l.map Prod.fst).isEmpty then none
         else some (condStart (fun s => decide (s.rpm / 7000 > 0.95)) (l.map Prod.fst))) ∧
      DurCharacter 5000 8000
        (condStart (fun s => decide (s.rpm / 7000 > 0.95)) (l.map Prod.fst))
        (l.map Prod.fst).getLast? (runAlerts l).active.highRpm) ∧
    (∀ l : List (Sample × ℚ),
      (∀ x ∈ l.map Prod.fst, 0 < x.timestamp) →
      (l.map Prod.fst).Pairwise (fun a b => a.timestamp ≤ b.timestamp) →
      Option.map RuleRuntime.conditionActiveSince (runAlerts l).runtimes.brakeThrottle =
        (if (l.map Prod.fst).isEmpty then none
         else some (condStart (fun s => decide (s.throttlePct > 20 ∧ s.brakePct > 20))
           (l.map Prod.fst))) ∧
      DurCharacter 3000 5000
        (condStart (fun s => decide (s.throttlePct > 20 ∧ s.brakePct > 20)) (l.map Prod.fst))
        (l.map Prod.fst).getLast? (runAlerts l).active.brakeThrottle) := by
  constructor
  · intro l hpos hmono
    obtain ⟨h1, h2⟩ := @durInvariant_run "high-rpm"
      (fun s => decide (s.rpm / 7000 > 0.95)) 5000 8000 (by norm_num) (by norm_num) l hpos hmono
    have hproj := runAlerts_proj_highRpm l
    constructor
    · rw [show (runAlerts l).runtimes.highRpm =
        (l.foldl (ruleMini highRpmRule) (none, none)).2 from congrArg Prod.snd hproj]
      exact h1
    · rw [show (runAlerts l).active.highRpm =
        (l.foldl (ruleMini highRpmRule) (none, none)).1 from congrArg Prod.fst hproj]
      exact h2
  · intro l hpos hmono
    obtain ⟨h1, h2⟩ := @durInvariant_run "brake-throttle-overlap"
      (fun s => decide (s.throttlePct > 20 ∧ s.brakePct > 20)) 3000 5000 (by norm_num)
      (by norm_num) l hpos hmono
    have hproj := runAlerts_proj_brakeThrottle l
    constructor
    · rw [show (runAlerts l).runtimes.brakeThrottle =
        (l.foldl (ruleMini brakeThrottleRule) (none, none)).2 from congrArg Prod.snd hproj]
      exact h1
    · rw [show (runAlerts l).active.brakeThrottle =
        (l.foldl (ruleMini brakeThrottleRule) (none, none)).1 from congrArg Prod.fst hproj]
      exact h2

/-- Witness for C5 (amended): the high-rpm condition held from t=1000 to
t=6000 (duration exactly `warnMs = 5000`) on a positive, monotone
stream; the theorem applies and characterises the resulting state. -/
theorem duration_rule_boundary_witness :
    Option.map RuleRuntime.conditionActiveSince
      (runAlerts [(hiRpmSample 1000, 0), (hiRpmSample 6000, 0)]).runtimes.highRpm =
      (if ([(hiRpmSample 1000, 0), (hiRpmSample 6000, 0)].map Prod.fst).isEmpty then none
       else some (condStart (fun s => decide (s.rpm / 7000 > 0.95))
         ([(hiRpmSample 1000, 0), (hiRpmSample 6000, 0)].map Prod.fst))) ∧
    DurCharacter 5000 8000
      (condStart (fun s => decide (s.rpm / 7000 > 0.95))
        ([(hiRpmSample 1000, 0), (hiRpmSample 6000, 0)].map Prod.fst))
      ([(hiRpmSample 1000, 0), (hiRpmSample 6000, 0)].map Prod.fst).getLast?
      (runAlerts [(hiRpmSample 1000, 0), (hiRpmSample 6000, 0)]).active.highRpm :=
  duration_rule_boundary_for_positive_monotone_streams.1
    [(hiRpmSample 1000, 0), (hiRpmSample 6000, 0)]
    (by norm_num [hiRpmSample, mkSample])
    (by norm_num [hiRpmSample, mkSample])

/-! ### Claim C6: level-rule hysteresis stability -/

/-- The C6 possession invariant for one rule: the rule's active entry
holds an alert that is active and was first seen at `t0`. -/
def HoldsAlert (t0 : ℚ) (m : Option Alert × Option RuleRuntime) : Prop :=
  ∃ a, m.1 = some a ∧ a.active = true ∧ a.firstSeen = t0

lemma coolantStep_creates (m : Option Alert × Option RuleRuntime) (s : Sample)
    (w : ℚ) (hnone : m.1 = none) (h110 : s.coolantC > 110) :
    HoldsAlert s.timestamp (ruleMini coolantStep m (s, w)) := by
  unfold ruleMini coolantStep
  by_cases h120 : s.coolantC > 120
  · rw [if_pos h120]
    exact ⟨_, rfl, by simp [fireStep, upsertActive, hnone]⟩
  · rw [if_neg h120, if_pos h110]
    exact ⟨_, rfl, by simp [fireStep, upsertActive, hnone]⟩

lemma coolantStep_preserves (m : Option Alert × Option RuleRuntime) (s : Sample)
    (w : ℚ) (t0 : ℚ) (hge : 105 ≤ s.coolantC)
    (hJ : HoldsAlert t0 m) : HoldsAlert t0 (ruleMini coolantStep m (s, w)) := by
  obtain ⟨a, hm, hact, hfs⟩ := hJ
  unfold ruleMini coolantStep
  by_cases h120 : s.coolantC > 120
  · rw [if_pos h120]
    exact ⟨_, rfl, by simp [fireStep, upsertActive, hm], by simp [fireStep, upsertActive, hm, hfs]⟩
  · by_cases h110 : s.coolantC > 110
    · rw [if_neg h120, if_pos h110]
      exact ⟨_, rfl, by simp [fireStep, upsertActive, hm], by simp [fireStep, upsertActive, hm, hfs]⟩
    · rw [if_neg h120, if_neg h110]
      rw [if_neg (by intro h; linarith [h.2])]
      exact ⟨a, by simpa [keepStep] using hm, hact, hfs⟩

lemma tireStep_creates (m : Option Alert × Option RuleRuntime) (s : Sample)
    (w : ℚ) (hnone : m.1 = none) (h15 : tireDeltaOf s > 15) :
    HoldsAlert s.timestamp (ruleMini tireStep m (s, w)) := by
  unfold ruleMini tireStep
  by_cases h20 : tireDeltaOf s > 20
  · rw [if_pos h20]
    exact ⟨_, rfl, by simp [fireStep, upsertActive, hnone]⟩
  · rw [if_neg h20, if_pos h15]
    exact ⟨_, rfl, by simp [fireStep, upsertActive, hnone]⟩

lemma tireStep_preserves (m : Option Alert × Option RuleRuntime) (s : Sample)
    (w : ℚ) (t0 : ℚ) (hge : 12 ≤ tireDeltaOf s)
    (hJ : HoldsAlert t0 m) : HoldsAlert t0 (ruleMini tireStep m (s, w)) := by
  obtain ⟨a, hm, hact, hfs⟩ := hJ
  unfold ruleMini tireStep
  by_cases h20 : tireDeltaOf s > 20
  · rw [if_pos h20]
    exact ⟨_, rfl, by simp [fireStep, upsertActive, hm], by simp [fireStep, upsertActive, hm, hfs]⟩
  · by_cases h15 : tireDeltaOf s > 15
    · rw [if_neg h20, if_pos h15]
      exact ⟨_, rfl, by simp [fireStep, upsertActive, hm], by simp [fireStep, upsertActive, hm, hfs]⟩
    · rw [if_neg h20, if_neg h15]
      rw [if_neg (by intro h; linarith [h.2])]
      exact ⟨a, by simpa [keepStep] using hm, hact, hfs⟩

/-- The C6 invariant for the battery rule additionally pins the runtime's
`lastSeverity` to warning (the oscillation never dips below the critical
threshold). -/
def HoldsBattery (t0 : ℚ) (m : Option Alert × Option RuleRuntime) : Prop :=
  HoldsAlert t0 m ∧
  ∃ rt, m.2 = some rt ∧ rt.lastSeverity = some AlertSeverity.warning

lemma batteryStep_creates (m : Option Alert × Option RuleRuntime) (s : Sample)
    (w : ℚ) (hnone : m.1 = none) (h8 : 8 ≤ s.stateOfCharge)
    (h15 : s.stateOfCharge < 15) :
    HoldsBattery s.timestamp (ruleMini batteryStep m (s, w)) := by
  unfold ruleMini batteryStep
  rw [if_neg (by linarith), if_pos h15]
  exact ⟨⟨_, rfl, by simp [fireStep, upsertActive, hnone]⟩, _, rfl, rfl⟩

lemma batteryStep_preserves (m : Option Alert × Option RuleRuntime) (s : Sample)
    (w : ℚ) (t0 : ℚ) (h8 : 8 ≤ s.stateOfCharge) (h17 : s.stateOfCharge ≤ 17)
    (hJ : HoldsBattery t0 m) : HoldsBattery t0 (ruleMini batteryStep m (s, w)) := by
  obtain ⟨⟨a, hm, hact, hfs⟩, rt, hrt, hsev⟩ := hJ
  unfold ruleMini batteryStep
  by_cases h15 : s.stateOfCharge < 15
  · rw [if_neg (by linarith), if_pos h15]
    refine ⟨⟨_, rfl, by simp [fireStep, upsertActive, hm], by simp [fireStep, upsertActive, hm, hfs]⟩, _, rfl, rfl⟩
  · rw [if_neg (by linarith), if_neg h15]
    rw [if_neg ?hclear]
    case hclear =>
      rw [hrt, Option.getD_some, hsev]
      rintro (⟨h1, _⟩ | ⟨_, h2⟩)
      · cases h1
      · linarith
    exact ⟨⟨a, by simpa [keepStep] using hm, hact, hfs⟩, rt,
      by simp [keepStep, hrt], hsev⟩

lemma coolant_fold (l : List (Sample × ℚ)) :
    ∀ (m : Option Alert × Option RuleRuntime) (t0 : ℚ),
      (∀ x ∈ l.map Prod.fst, 105 ≤ x.coolantC) → HoldsAlert t0 m →
      HoldsAlert t0 (l.foldl (ruleMini coolantStep) m) := by
  induction l with
  | nil => intro m t0 _ h; exact h
  | cons i t ih =>
    intro m t0 hall h
    rw [List.foldl_cons]
    exact ih _ t0 (fun x hx => hall x (by simp [hx]))
      (coolantStep_preserves m i.1 i.2 t0 (hall i.1 (by simp)) h)

lemma tire_fold (l : List (Sample × ℚ)) :
    ∀ (m : Option Alert × Option RuleRuntime) (t0 : ℚ),
      (∀ x ∈ l.map Prod.fst, 12 ≤ tireDeltaOf x) → HoldsAlert t0 m →
      HoldsAlert t0 (l.foldl (ruleMini tireStep) m) := by
  induction l with
  | nil => intro m t0 _ h; exact h
  | cons i t ih =>
    intro m t0 hall h
    rw [List.foldl_cons]
    exact ih _ t0 (fun x hx => hall x (by simp [hx]))
      (tireStep_preserves m i.1 i.2 t0 (hall i.1 (by simp)) h)

lemma battery_fold (l : List (Sample × ℚ)) :
    ∀ (m : Option Alert × Option RuleRuntime) (t0 : ℚ),
      (∀ x ∈ l.map Prod.fst, 8 ≤ x.stateOfCharge ∧ x.stateOfCharge ≤ 17) →
      HoldsBattery t0 m →
      HoldsBattery t0 (l.foldl (ruleMini batteryStep) m) := by
  induction l with
  | nil => intro m t0 _ h; exact h
  | cons i t ih =>
    intro m t0 hall h
    rw [List.foldl_cons]
    exact ih _ t0 (fun x hx => hall x (by simp [hx]))
      (batteryStep_preserves m i.1 i.2 t0 (hall i.1 (by simp)).1
        (hall i.1 (by simp)).2 h)

/-- C6 confirmed: for each level-threshold rule, a stream whose first
sample crosses the trigger threshold and whose subsequent samples
oscillate ≥ the rule's clear boundary (coolant ≥ 105 °C, tire delta
≥ 12 °C, battery SoC staying in `[8, 17]` %) keeps exactly one
continuously active alert: at every prefix the rule's active entry holds
an alert with `active = true` and the unchanged `firstSeen` of the
triggering sample — it is never cleared and no second alert is created
(the active record holds at most one alert per rule id by construction). -/
theorem level_rule_hysteresis_stability :
    (∀ (s0 : Sample) (w0 : ℚ) (l : List (Sample × ℚ)),
      s0.coolantC > 110 → (∀ x ∈ l.map Prod.fst, 105 ≤ x.coolantC) →
      ∃ a, (runAlerts ((s0, w0) :: l)).active.coolantTemp = some a ∧
        a.active = true ∧ a.firstSeen = s0.timestamp) ∧
    (∀ (s0 : Sample) (w0 : ℚ) (l : List (Sample × ℚ)),
      tireDeltaOf s0 > 15 → (∀ x ∈ l.map Prod.fst, 12 ≤ tireDeltaOf x) →
      ∃ a, (runAlerts ((s0, w0) :: l)).active.tireDelta = some a ∧
        a.active = true ∧ a.firstSeen = s0.timestamp) ∧
    (∀ (s0 : Sample) (w0 : ℚ) (l : List (Sample × ℚ)),
      8 ≤ s0.stateOfCharge → s0.stateOfCharge < 15 →
      (∀ x ∈ l.map Prod.fst, 8 ≤ x.stateOfCharge ∧ x.stateOfCharge ≤ 17) →
      ∃ a, (runAlerts ((s0, w0) :: l)).active.batterySoc = some a ∧
        a.active = true ∧ a.firstSeen = s0.timestamp) := by
  refine ⟨fun s0 w0 l h0 hrest => ?_, fun s0 w0 l h0 hrest => ?_,
    fun s0 w0 l h8 h15 hrest => ?_⟩
  · have hproj := congrArg Prod.fst (runAlerts_proj_coolant ((s0, w0) :: l))
    simp only at hproj
    rw [hproj, List.foldl_cons]
    exact coolant_fold l _ s0.timestamp hrest
      (coolantStep_creates (none, none) s0 w0 rfl h0)
  · have hproj := congrArg Prod.fst (runAlerts_proj_tire ((s0, w0) :: l))
    simp only at hproj
    rw [hproj, List.foldl_cons]
    exact tire_fold l _ s0.timestamp hrest
      (tireStep_creates (none, none) s0 w0 rfl h0)
  · have hproj := congrArg Prod.fst (runAlerts_proj_battery ((s0, w0) :: l))
    simp only at hproj
    rw [hproj, List.foldl_cons]
    exact (battery_fold l _ s0.timestamp hrest
      (batteryStep_creates (none, none) s0 w0 rfl h8 h15)).1

/-- Witness for C6: concrete two-sample oscillations for each rule
(coolant 111 then 109 °C; tire delta 16 then 13 °C; SoC 14 then 16 %),
each keeping one active alert first seen at the trigger sample. -/
theorem level_rule_hysteresis_witness :
    (∃ a, (runAlerts [({ mkSample 1 with coolantC := 111 }, 0),
        ({ mkSample 2 with coolantC := 109 }, 0)]).active.coolantTemp = some a ∧
      a.active = true ∧ a.firstSeen = ({ mkSample 1 with coolantC := 111 } : Sample).timestamp) ∧
    (∃ a, (runAlerts [({ mkSample 1 with tireFL := 66 }, 0),
        ({ mkSample 2 with tireFL := 63 }, 0)]).active.tireDelta = some a ∧
      a.active = true ∧ a.firstSeen = ({ mkSample 1 with tireFL := 66 } : Sample).timestamp) ∧
    (∃ a, (runAlerts [({ mkSample 1 with stateOfCharge := 14 }, 0),
        ({ mkSample 2 with stateOfCharge := 16 }, 0)]).active.batterySoc = some a ∧
      a.active = true ∧ a.firstSeen = ({ mkSample 1 with stateOfCharge := 14 } : Sample).timestamp) :=
  ⟨level_rule_hysteresis_stability.1 { mkSample 1 with coolantC := 111 } 0
      [({ mkSample 2 with coolantC := 109 }, 0)]
      (by norm_num [mkSample]) (by norm_num [mkSample]),
   level_rule_hysteresis_stability.2.1 { mkSample 1 with tireFL := 66 } 0
      [({ mkSample 2 with tireFL := 63 }, 0)]
      (by norm_num [tireDeltaOf, mkSample]) (by norm_num [tireDeltaOf, mkSample]),
   level_rule_hysteresis_stability.2.2 { mkSample 1 with stateOfCharge := 14 } 0
      [({ mkSample 2 with stateOfCharge := 16 }, 0)]
      (by norm_num [mkSample]) (by norm_num [mkSample]) (by norm_num [mkSample])⟩

end CarTelemetry
